import Mathlib

/-!
Verification of the astring code generator (`src/astring.js`).

The generator walks an ESTree-style AST and emits JavaScript source text.
This file gives a shallow embedding of the emitter: the AST node kinds the
development covers are an inductive type, the emission state is a structure
mirroring the `State` class, and `render` is a fuel-indexed interpreter whose
per-constructor branches are direct translations of the corresponding
formatters of the dispatch table `defaultGenerator`. Fuel only bounds the
recursion depth; with fuel `0` every function returns its state unchanged, so
any sufficiently large fuel computes exactly what the JavaScript code does.

Node kinds not needed by any proof are left out of the inductive type
(imports/exports, templates, method definitions, arrays, labels, try/with,
yield/await, meta properties and the regex/value fallbacks of `Literal`);
the string-keyed precedence tables are translated in full.
-/

namespace Astring

/-- Kinds of runtime failure the emitter can produce. The source never
constructs an error of its own: looking up a missing entry of the dispatch
table yields `undefined`, and calling it throws a TypeError that carries no
information about the node kind. -/
inductive JsError where
  | typeErrorCallUndefined
deriving DecidableEq, Repr

/-- A dispatch table maps a node's `type` string to a formatter, here
identified by its index in the default table. `none` models the absence of
an entry. -/
def GenTable := String → Option Nat

/-- The keys of `defaultGenerator` (lines 207-869 of `src/astring.js`), in
source order. -/
def defaultGeneratorKeys : List String :=
  ["Program", "BlockStatement", "ClassBody", "EmptyStatement",
   "ExpressionStatement", "IfStatement", "LabeledStatement", "BreakStatement",
   "ContinueStatement", "WithStatement", "SwitchStatement", "ReturnStatement",
   "ThrowStatement", "TryStatement", "WhileStatement", "DoWhileStatement",
   "ForStatement", "ForInStatement", "ForOfStatement", "DebuggerStatement",
   "FunctionDeclaration", "FunctionExpression", "VariableDeclaration",
   "VariableDeclarator", "ClassDeclaration", "ImportDeclaration",
   "ExportDefaultDeclaration", "ExportNamedDeclaration",
   "ExportAllDeclaration", "MethodDefinition", "ClassExpression",
   "ArrowFunctionExpression", "ThisExpression", "Super", "RestElement",
   "SpreadElement", "YieldExpression", "AwaitExpression", "TemplateLiteral",
   "TaggedTemplateExpression", "ArrayExpression", "ArrayPattern",
   "ObjectExpression", "Property", "ObjectPattern", "SequenceExpression",
   "UnaryExpression", "UpdateExpression", "AssignmentExpression",
   "AssignmentPattern", "BinaryExpression", "LogicalExpression",
   "ConditionalExpression", "NewExpression", "CallExpression",
   "MemberExpression", "MetaProperty", "Identifier", "Literal",
   "RegExpLiteral"]

/-- The default dispatch table, as a partial map from `type` strings to
formatter identities. -/
def defaultGeneratorTable : GenTable := fun ty =>
  defaultGeneratorKeys.findIdx? (fun k => k = ty)

/-- Looking a node kind up in a table and invoking the result, as the entry
point `state.generator[ node.type ]( node, state )` does. A missing entry
means calling `undefined`, which throws. -/
def applyGenerator (g : GenTable) (ty : String) : Except JsError Nat :=
  match g ty with
  | some f => Except.ok f
  | none => Except.error JsError.typeErrorCallUndefined

/-- `OPERATOR_PRECEDENCE` (lines 14-39). -/
def OPERATOR_PRECEDENCE : String → Option Nat := fun op =>
  match op with
  | "||" => some 3
  | "&&" => some 4
  | "|" => some 5
  | "^" => some 6
  | "&" => some 7
  | "==" => some 8
  | "!=" => some 8
  | "===" => some 8
  | "!==" => some 8
  | "<" => some 9
  | ">" => some 9
  | "<=" => some 9
  | ">=" => some 9
  | "in" => some 9
  | "instanceof" => some 9
  | "<<" => some 10
  | ">>" => some 10
  | ">>>" => some 10
  | "+" => some 11
  | "-" => some 11
  | "*" => some 12
  | "%" => some 12
  | "/" => some 12
  | "**" => some 13
  | _ => none

/-- `EXPRESSIONS_PRECEDENCE` (lines 42-71). -/
def EXPRESSIONS_PRECEDENCE : String → Option Nat := fun ty =>
  match ty with
  | "ArrayExpression" => some 20
  | "TaggedTemplateExpression" => some 20
  | "ThisExpression" => some 20
  | "Identifier" => some 20
  | "Literal" => some 18
  | "TemplateLiteral" => some 20
  | "Super" => some 20
  | "SequenceExpression" => some 20
  | "MemberExpression" => some 19
  | "CallExpression" => some 19
  | "NewExpression" => some 19
  | "ArrowFunctionExpression" => some 18
  | "ClassExpression" => some 17
  | "FunctionExpression" => some 17
  | "ObjectExpression" => some 17
  | "UpdateExpression" => some 16
  | "UnaryExpression" => some 15
  | "BinaryExpression" => some 14
  | "LogicalExpression" => some 13
  | "ConditionalExpression" => some 4
  | "AssignmentExpression" => some 3
  | "YieldExpression" => some 2
  | "RestElement" => some 1
  | _ => none

/-- JavaScript `a < b` on two possibly-undefined numbers: any comparison
involving `undefined` is `false`. -/
def jsLt : Option Nat → Option Nat → Bool
  | some a, some b => a < b
  | _, _ => false

/-- JavaScript `a <= b` with `undefined` propagating to `false`. -/
def jsLe : Option Nat → Option Nat → Bool
  | some a, some b => a ≤ b
  | _, _ => false

/-- JavaScript `a > b` with `undefined` propagating to `false`. -/
def jsGt : Option Nat → Option Nat → Bool
  | some a, some b => b < a
  | _, _ => false

/-- The AST node kinds covered by this development. Field names follow the
ESTree attribute names used by the source (`prefix` is spelled `prfx`, a
reserved word in Lean). `SwitchStatement` keeps its cases inline as
`(test, consequent)` pairs because the source reads those fields directly
instead of dispatching on a `SwitchCase` kind. `ArrowFunctionExpression`
keeps `params` optional because the source tests `params != null` before
emitting any parameter list. -/
inductive Node where
  | Program (body : List Node)
  | BlockStatement (body : List Node)
  | ClassBody (body : List Node)
  | EmptyStatement
  | ExpressionStatement (expression : Node)
  | IfStatement (test : Node) (consequent : Node) (alternate : Option Node)
  | WhileStatement (test : Node) (body : Node)
  | DoWhileStatement (body : Node) (test : Node)
  | ForStatement (init : Option Node) (test : Option Node)
      (update : Option Node) (body : Node)
  | ForInStatement (left : Node) (right : Node) (body : Node)
  | ForOfStatement (left : Node) (right : Node) (body : Node)
  | SwitchStatement (discriminant : Node) (cases : List (Option Node × List Node))
  | ReturnStatement (argument : Option Node)
  | ThrowStatement (argument : Node)
  | DebuggerStatement
  | VariableDeclaration (kind : String) (declarations : List Node)
  | VariableDeclarator (id : Node) (init : Option Node)
  | FunctionDeclaration (async : Bool) (generator : Bool) (id : Option String)
      (params : Option (List Node)) (body : Node)
  | FunctionExpression (async : Bool) (generator : Bool) (id : Option String)
      (params : Option (List Node)) (body : Node)
  | ClassDeclaration (id : Option String) (superClass : Option Node) (body : Node)
  | ClassExpression (id : Option String) (superClass : Option Node) (body : Node)
  | ArrowFunctionExpression (async : Bool) (params : Option (List Node)) (body : Node)
  | ThisExpression
  | Super
  | RestElement (argument : Node)
  | SpreadElement (argument : Node)
  | SequenceExpression (expressions : List Node)
  | UnaryExpression (operator : String) (prfx : Bool) (argument : Node)
  | UpdateExpression (operator : String) (prfx : Bool) (argument : Node)
  | AssignmentExpression (operator : String) (left : Node) (right : Node)
  | AssignmentPattern (left : Node) (right : Node)
  | BinaryExpression (operator : String) (left : Node) (right : Node)
  | LogicalExpression (operator : String) (left : Node) (right : Node)
  | ConditionalExpression (test : Node) (consequent : Node) (alternate : Node)
  | NewExpression (callee : Node) (arguments : List Node)
  | CallExpression (callee : Node) (arguments : List Node)
  | MemberExpression (object : Node) (property : Node) (computed : Bool)
  | ObjectExpression (properties : List Node)
  | Property (shorthand : Bool) (computed : Bool) (key : Node) (value : Node)
  | ObjectPattern (properties : List Node)
  | Identifier (name : String)
  | Literal (raw : String)
deriving Repr

/-- The `type` string of a node, as an ESTree parser would set it. -/
def typeOf : Node → String
  | .Program _ => "Program"
  | .BlockStatement _ => "BlockStatement"
  | .ClassBody _ => "ClassBody"
  | .EmptyStatement => "EmptyStatement"
  | .ExpressionStatement _ => "ExpressionStatement"
  | .IfStatement _ _ _ => "IfStatement"
  | .WhileStatement _ _ => "WhileStatement"
  | .DoWhileStatement _ _ => "DoWhileStatement"
  | .ForStatement _ _ _ _ => "ForStatement"
  | .ForInStatement _ _ _ => "ForInStatement"
  | .ForOfStatement _ _ _ => "ForOfStatement"
  | .SwitchStatement _ _ => "SwitchStatement"
  | .ReturnStatement _ => "ReturnStatement"
  | .ThrowStatement _ => "ThrowStatement"
  | .DebuggerStatement => "DebuggerStatement"
  | .VariableDeclaration _ _ => "VariableDeclaration"
  | .VariableDeclarator _ _ => "VariableDeclarator"
  | .FunctionDeclaration _ _ _ _ _ => "FunctionDeclaration"
  | .FunctionExpression _ _ _ _ _ => "FunctionExpression"
  | .ClassDeclaration _ _ _ => "ClassDeclaration"
  | .ClassExpression _ _ _ => "ClassExpression"
  | .ArrowFunctionExpression _ _ _ => "ArrowFunctionExpression"
  | .ThisExpression => "ThisExpression"
  | .Super => "Super"
  | .RestElement _ => "RestElement"
  | .SpreadElement _ => "SpreadElement"
  | .SequenceExpression _ => "SequenceExpression"
  | .UnaryExpression _ _ _ => "UnaryExpression"
  | .UpdateExpression _ _ _ => "UpdateExpression"
  | .AssignmentExpression _ _ _ => "AssignmentExpression"
  | .AssignmentPattern _ _ => "AssignmentPattern"
  | .BinaryExpression _ _ _ => "BinaryExpression"
  | .LogicalExpression _ _ _ => "LogicalExpression"
  | .ConditionalExpression _ _ _ => "ConditionalExpression"
  | .NewExpression _ _ => "NewExpression"
  | .CallExpression _ _ => "CallExpression"
  | .MemberExpression _ _ _ => "MemberExpression"
  | .ObjectExpression _ => "ObjectExpression"
  | .Property _ _ _ _ => "Property"
  | .ObjectPattern _ => "ObjectPattern"
  | .Identifier _ => "Identifier"
  | .Literal _ => "Literal"

/-- The `operator` attribute of a node; `none` models `undefined` for kinds
without one. -/
def operatorOf : Node → Option String
  | .UnaryExpression op _ _ => some op
  | .UpdateExpression op _ _ => some op
  | .AssignmentExpression op _ _ => some op
  | .BinaryExpression op _ _ => some op
  | .LogicalExpression op _ _ => some op
  | _ => none

/-- The `left` attribute of a node, for the kinds that carry one. -/
def leftOf : Node → Option Node
  | .AssignmentExpression _ l _ => some l
  | .AssignmentPattern l _ => some l
  | .BinaryExpression _ l _ => some l
  | .LogicalExpression _ l _ => some l
  | .ForInStatement l _ _ => some l
  | .ForOfStatement l _ _ => some l
  | _ => none

/-- The `name` attribute; kinds without one stringify `undefined`, which is
what `state.write` would receive in JavaScript. -/
def nameOf : Node → String
  | .Identifier n => n
  | _ => "undefined"

/-- First character of a string, for the source's `type[0]`-style checks. -/
def headChar (s : String) : Option Char := s.data.head?

/-- `expressionNeedsParenthesis` (lines 93-109), including the JavaScript
comparison semantics on possibly-undefined table lookups. -/
def expressionNeedsParenthesis (node parentNode : Node) (isRightHand : Bool) : Bool :=
  let nodePrecedence := EXPRESSIONS_PRECEDENCE (typeOf node)
  let parentNodePrecedence := EXPRESSIONS_PRECEDENCE (typeOf parentNode)
  if nodePrecedence != parentNodePrecedence then
    jsLt nodePrecedence parentNodePrecedence
  else if nodePrecedence != some 13 && nodePrecedence != some 14 then
    false
  else if operatorOf node == some "**" && operatorOf parentNode == some "**" then
    !isRightHand
  else if isRightHand then
    jsLe ((operatorOf node).bind OPERATOR_PRECEDENCE)
      ((operatorOf parentNode).bind OPERATOR_PRECEDENCE)
  else
    jsLt ((operatorOf node).bind OPERATOR_PRECEDENCE)
      ((operatorOf parentNode).bind OPERATOR_PRECEDENCE)

/-- `hasCallExpression` (lines 179-195): walks the `.object` chain of member
expressions; falling out of the loop is falsy. -/
def hasCallExpression : Node → Bool
  | .CallExpression _ _ => true
  | .MemberExpression obj _ _ => hasCallExpression obj
  | _ => false

/-- The options record accepted by the entry point (§6.1); `none` stands for
an absent key. The `output` stream and source-map sink are out of scope. -/
structure Options where
  indent : Option String
  lineEnd : Option String
  startingIndentLevel : Option Nat
  comments : Option Bool
  generator : Option GenTable

/-- All options absent. -/
def Options.default : Options := ⟨none, none, none, none, none⟩

/-- The emission state (`class State`, lines 875-937). The output buffer is a
character list; `write` appends. The source-map fields, which are stubs in
the source, are not modeled. -/
structure State where
  output : List Char
  generator : GenTable
  indent : String
  lineEnd : String
  indentLevel : Nat
  writeComments : Bool
  noTrailingSemicolon : Bool

/-- The `State` constructor's defaulting of options (lines 877-899). -/
def State.ofOptions (setup : Options) : State :=
  { output := []
    generator := match setup.generator with
      | some g => g
      | none => defaultGeneratorTable
    indent := match setup.indent with
      | some s => s
      | none => "\t"
    lineEnd := match setup.lineEnd with
      | some s => s
      | none => "\n"
    indentLevel := match setup.startingIndentLevel with
      | some n => n
      | none => 0
    writeComments := match setup.comments with
      | some b => b
      | none => false
    noTrailingSemicolon := false }

/-- `state.write( string )`: append to the output buffer. -/
def State.write (st : State) (s : String) : State :=
  { st with output := st.output ++ s.data }

/-- `string.repeat( count )`. -/
def strRepeat (s : String) (n : Nat) : String :=
  String.join (List.replicate n s)

/-- The default state: all options absent. -/
def defaultState : State := State.ofOptions Options.default

mutual

/-- The dispatch table `defaultGenerator`, one branch per node kind, as a
fuel-indexed interpreter. With fuel `0` the state is returned unchanged;
each formatter consumes one unit of fuel. Comment emission (the branches
guarded by `writeComments` in the source) is modeled separately by
`formatComments`, which never runs during `render` because nodes here carry
no comment attachments. The source invokes `this.VariableDeclarator`,
`this.Property`, `this.ClassBody` and `this.ObjectExpression` directly on
child nodes of those kinds; here those calls go through `render`, which
agrees on every node actually of the expected kind. -/
def render (fuel : Nat) (node : Node) (st : State) : State :=
  match fuel with
  | 0 => st
  | fuel + 1 =>
    match node with
    | .Program body =>
        renderStatementList fuel body (strRepeat st.indent st.indentLevel) st.lineEnd st
    | .BlockStatement body =>
        renderBlock fuel body st
    | .ClassBody body =>
        renderBlock fuel body st
    | .EmptyStatement => st.write (";")
    | .ExpressionStatement e =>
        let precedence := EXPRESSIONS_PRECEDENCE (typeOf e)
        let st :=
          if precedence == some 17
              || (precedence == some 3
                  && (match leftOf e with
                      | some l => headChar (typeOf l) == some 'O'
                      | none => false)) then
            ((render fuel e (st.write ("("))).write (")"))
          else
            render fuel e st
        st.write (";")
    | .IfStatement test consequent alternate =>
        let st := st.write ("if (")
        let st := render fuel test st
        let st := st.write (") ")
        let st := render fuel consequent st
        (match alternate with
         | some a => render fuel a (st.write (" else "))
         | none => st)
    | .WhileStatement test body =>
        let st := st.write ("while (")
        let st := render fuel test st
        let st := st.write (") ")
        render fuel body st
    | .DoWhileStatement body test =>
        let st := st.write ("do ")
        let st := render fuel body st
        let st := st.write (" while (")
        let st := render fuel test st
        st.write (");")
    | .ForStatement init test update body =>
        let st := st.write ("for (")
        let st :=
          match init with
          | some i =>
              let st := { st with noTrailingSemicolon := true }
              let st := render fuel i st
              { st with noTrailingSemicolon := false }
          | none => st
        let st := st.write ("; ")
        let st :=
          match test with
          | some t => render fuel t st
          | none => st
        let st := st.write ("; ")
        let st :=
          match update with
          | some u => render fuel u st
          | none => st
        let st := st.write (") ")
        render fuel body st
    | .ForInStatement left right body =>
        renderForIn fuel true left right body st
    | .ForOfStatement left right body =>
        renderForIn fuel false left right body st
    | .SwitchStatement discriminant cases =>
        let indent := strRepeat st.indent st.indentLevel
        let st := { st with indentLevel := st.indentLevel + 2 }
        let caseIndent := indent ++ st.indent
        let statementIndent := caseIndent ++ st.indent
        let st := st.write ("switch (")
        let st := render fuel discriminant st
        let st := st.write (") \x7b" ++ st.lineEnd)
        let st := renderSwitchCases fuel cases caseIndent statementIndent st.lineEnd st
        let st := { st with indentLevel := st.indentLevel - 2 }
        st.write (indent ++ "\x7d")
    | .ReturnStatement argument =>
        let st := st.write ("return")
        let st :=
          match argument with
          | some a => render fuel a (st.write (" "))
          | none => st
        st.write (";")
    | .ThrowStatement argument =>
        let st := st.write ("throw ")
        let st := render fuel argument st
        st.write (";")
    | .DebuggerStatement =>
        st.write ("debugger;" ++ st.lineEnd)
    | .VariableDeclaration kind declarations =>
        let st := st.write (kind ++ " ")
        let st := renderCommaSep fuel declarations st
        if st.noTrailingSemicolon != true then st.write (";") else st
    | .VariableDeclarator id init =>
        let st := render fuel id st
        (match init with
         | some i => render fuel i (st.write (" = "))
         | none => st)
    | .FunctionDeclaration async generator id params body =>
        renderFunction fuel async generator id params body st
    | .FunctionExpression async generator id params body =>
        renderFunction fuel async generator id params body st
    | .ClassDeclaration id superClass body =>
        renderClass fuel id superClass body st
    | .ClassExpression id superClass body =>
        renderClass fuel id superClass body st
    | .ArrowFunctionExpression async params body =>
        let st := if async then st.write ("async ") else st
        let st :=
          match params with
          | some ps =>
              (match ps with
               | [p] =>
                   if headChar (typeOf p) == some 'I' then st.write (nameOf p)
                   else formatSequence fuel st (some ps)
               | _ => formatSequence fuel st (some ps))
          | none => st
        let st := st.write (" => ")
        if headChar (typeOf body) == some 'O' then
          let st := st.write ("(")
          let st := render fuel body st
          st.write (")")
        else
          render fuel body st
    | .ThisExpression => st.write ("this")
    | .Super => st.write ("super")
    | .RestElement argument =>
        render fuel argument (st.write ("..."))
    | .SpreadElement argument =>
        render fuel argument (st.write ("..."))
    | .SequenceExpression expressions =>
        formatSequence fuel st (some expressions)
    | .UnaryExpression operator prfx argument =>
        if prfx then
          let st := st.write (operator)
          let st := if operator.length > 1 then st.write (" ") else st
          if jsLt (EXPRESSIONS_PRECEDENCE (typeOf argument))
              (EXPRESSIONS_PRECEDENCE ("UnaryExpression")) then
            let st := st.write ("(")
            let st := render fuel argument st
            st.write (")")
          else
            render fuel argument st
        else
          (render fuel argument st).write (operator)
    | .UpdateExpression operator prfx argument =>
        if prfx then
          render fuel argument (st.write (operator))
        else
          (render fuel argument st).write (operator)
    | .AssignmentExpression operator left right =>
        let st := render fuel left st
        let st := st.write (" " ++ operator ++ " ")
        render fuel right st
    | .AssignmentPattern left right =>
        let st := render fuel left st
        let st := st.write (" = ")
        render fuel right st
    | .BinaryExpression operator left right =>
        renderBinary fuel (.BinaryExpression operator left right) operator left right st
    | .LogicalExpression operator left right =>
        renderBinary fuel (.LogicalExpression operator left right) operator left right st
    | .ConditionalExpression test consequent alternate =>
        let st :=
          if jsGt (EXPRESSIONS_PRECEDENCE (typeOf test))
              (EXPRESSIONS_PRECEDENCE ("ConditionalExpression")) then
            render fuel test st
          else
            let st := st.write ("(")
            let st := render fuel test st
            st.write (")")
        let st := st.write (" ? ")
        let st := render fuel consequent st
        let st := st.write (" : ")
        render fuel alternate st
    | .NewExpression callee arguments =>
        let st := st.write ("new ")
        let st :=
          if jsLt (EXPRESSIONS_PRECEDENCE (typeOf callee))
              (EXPRESSIONS_PRECEDENCE ("CallExpression"))
              || hasCallExpression callee then
            let st := st.write ("(")
            let st := render fuel callee st
            st.write (")")
          else
            render fuel callee st
        formatSequence fuel st (some arguments)
    | .CallExpression callee arguments =>
        let st :=
          if jsLt (EXPRESSIONS_PRECEDENCE (typeOf callee))
              (EXPRESSIONS_PRECEDENCE ("CallExpression")) then
            let st := st.write ("(")
            let st := render fuel callee st
            st.write (")")
          else
            render fuel callee st
        formatSequence fuel st (some arguments)
    | .MemberExpression object property computed =>
        let st :=
          if jsLt (EXPRESSIONS_PRECEDENCE (typeOf object))
              (EXPRESSIONS_PRECEDENCE ("MemberExpression")) then
            let st := st.write ("(")
            let st := render fuel object st
            st.write (")")
          else
            render fuel object st
        if computed then
          let st := st.write ("[")
          let st := render fuel property st
          st.write ("]")
        else
          render fuel property (st.write ("."))
    | .ObjectExpression properties =>
        let indent := strRepeat st.indent st.indentLevel
        let st := { st with indentLevel := st.indentLevel + 1 }
        let propertyIndent := indent ++ st.indent
        let st := st.write ("\x7b")
        let st :=
          match properties with
          | [] => st.write ("\x7d")
          | p :: ps =>
              let st := st.write (st.lineEnd)
              let st := renderProperties fuel (p :: ps) propertyIndent
                ("," ++ st.lineEnd) st
              let st := st.write (st.lineEnd)
              st.write (indent ++ "\x7d")
        { st with indentLevel := st.indentLevel - 1 }
    | .Property shorthand computed key value =>
        let st :=
          if !shorthand then
            let st :=
              if computed then
                let st := st.write ("[")
                let st := render fuel key st
                st.write ("]")
              else
                render fuel key st
            st.write (": ")
          else st
        render fuel value st
    | .ObjectPattern properties =>
        let st := st.write ("\x7b")
        let st := renderCommaSep fuel properties st
        st.write ("\x7d")
    | .Identifier name => st.write (name)
    | .Literal raw => st.write (raw)

/-- The statement loops of `Program` (lines 215-222) and `BlockStatement`
(lines 238-245), and the consequent loop of `SwitchStatement` (lines
336-343): each statement is preceded by the indent and followed by the line
end. -/
def renderStatementList (fuel : Nat) (stmts : List Node) (indent lineEnd : String)
    (st : State) : State :=
  match fuel with
  | 0 => st
  | fuel + 1 =>
    match stmts with
    | [] => st
    | x :: xs =>
        let st := st.write (indent)
        let st := render fuel x st
        let st := st.write (lineEnd)
        renderStatementList fuel xs indent lineEnd st

/-- The shared body of `BlockStatement`/`ClassBody` (lines 226-258), with the
comment-only branches omitted (comments are unmodeled on nodes). -/
def renderBlock (fuel : Nat) (body : List Node) (st : State) : State :=
  match fuel with
  | 0 => st
  | fuel + 1 =>
    let indent := strRepeat st.indent st.indentLevel
    let st := { st with indentLevel := st.indentLevel + 1 }
    let statementIndent := indent ++ st.indent
    let st := st.write ("\x7b")
    let st :=
      match body with
      | [] => st
      | x :: xs =>
          let st := st.write (st.lineEnd)
          let st := renderStatementList fuel (x :: xs) statementIndent st.lineEnd st
          st.write (indent)
    let st := st.write ("\x7d")
    { st with indentLevel := st.indentLevel - 1 }

/-- The shared `ForInStatement`/`ForOfStatement` formatter (lines 406-417);
`isIn` stands for the source's `node.type[ 3 ] === 'I'` check. -/
def renderForIn (fuel : Nat) (isIn : Bool) (left right body : Node) (st : State) : State :=
  match fuel with
  | 0 => st
  | fuel + 1 =>
    let st := st.write ("for (")
    let st := { st with noTrailingSemicolon := true }
    let st := render fuel left st
    let st := { st with noTrailingSemicolon := false }
    let st := st.write (if isIn then " in " else " of ")
    let st := render fuel right st
    let st := st.write (") ")
    render fuel body st

/-- The case loop of `SwitchStatement` (lines 323-344). -/
def renderSwitchCases (fuel : Nat) (cases : List (Option Node × List Node))
    (caseIndent statementIndent lineEnd : String) (st : State) : State :=
  match fuel with
  | 0 => st
  | fuel + 1 =>
    match cases with
    | [] => st
    | (test, consequent) :: rest =>
        let st :=
          match test with
          | some t =>
              let st := st.write (caseIndent ++ "case ")
              let st := render fuel t st
              st.write (":" ++ lineEnd)
          | none => st.write (caseIndent ++ "default:" ++ lineEnd)
        let st := renderStatementList fuel consequent statementIndent lineEnd st
        renderSwitchCases fuel rest caseIndent statementIndent lineEnd st

/-- A comma-separated run of child nodes: the declarator loop of
`VariableDeclaration` (lines 438-444), the property loop of `ObjectPattern`
(lines 728-737) and the element loop of `formatSequence` (lines 80-88) all
render the first child and prefix each further child with `", "`. -/
def renderCommaSep (fuel : Nat) (nodes : List Node) (st : State) : State :=
  match fuel with
  | 0 => st
  | fuel + 1 =>
    match nodes with
    | [] => st
    | x :: xs => renderCommaSepTail fuel xs (render fuel x st)

/-- Tail of `renderCommaSep`: every remaining child is preceded by `", "`. -/
def renderCommaSepTail (fuel : Nat) (nodes : List Node) (st : State) : State :=
  match fuel with
  | 0 => st
  | fuel + 1 =>
    match nodes with
    | [] => st
    | x :: xs => renderCommaSepTail fuel xs (render fuel x (st.write (", ")))

/-- The property loop of `ObjectExpression` (lines 674-684): every property
on its own indented line, separated by `comma` (a `,` followed by the line
end). -/
def renderProperties (fuel : Nat) (properties : List Node)
    (propertyIndent comma : String) (st : State) : State :=
  match fuel with
  | 0 => st
  | fuel + 1 =>
    match properties with
    | [] => st
    | [p] =>
        render fuel p (st.write (propertyIndent))
    | p :: q :: rest =>
        let st := render fuel p (st.write (propertyIndent))
        let st := st.write (comma)
        renderProperties fuel (q :: rest) propertyIndent comma st

/-- `formatSequence` (lines 74-90): a parenthesized, comma-separated child
list; `none` models a `null` list, which emits just `()`. -/
def formatSequence (fuel : Nat) (st : State) (nodes : Option (List Node)) : State :=
  match fuel with
  | 0 => st
  | fuel + 1 =>
    let st := st.write ("(")
    let st :=
      match nodes with
      | some l => renderCommaSep fuel l st
      | none => st
    st.write (")")

/-- The shared `FunctionDeclaration`/`FunctionExpression` formatter (lines
422-432). -/
def renderFunction (fuel : Nat) (async generator : Bool) (id : Option String)
    (params : Option (List Node)) (body : Node) (st : State) : State :=
  match fuel with
  | 0 => st
  | fuel + 1 =>
    let st := st.write
      ((if async then "async " else "")
        ++ (if generator then "function* " else "function ")
        ++ (match id with
            | some n => n
            | none => ""))
    let st := formatSequence fuel st params
    let st := st.write (" ")
    render fuel body st

/-- The `ClassDeclaration` formatter (lines 455-467), shared by
`ClassExpression` (which delegates to it). When `id` is absent the source
writes a single space in its place, and `extends` is emitted without a
space after the name, exactly as in the source. -/
def renderClass (fuel : Nat) (id : Option String) (superClass : Option Node)
    (body : Node) (st : State) : State :=
  match fuel with
  | 0 => st
  | fuel + 1 =>
    let st := st.write
      ("class " ++ (match id with
                    | some n => n
                    | none => " "))
    let st :=
      match superClass with
      | some sc =>
          let st := st.write ("extends ")
          let st := render fuel sc st
          st.write (" ")
      | none => st
    render fuel body st

/-- `formatBinaryExpressionPart` (lines 112-126): one operand of a binary or
logical expression, parenthesized when the precedence oracle demands it. -/
def formatBinaryExpressionPart (fuel : Nat) (st : State) (node parentNode : Node)
    (isRightHand : Bool) : State :=
  match fuel with
  | 0 => st
  | fuel + 1 =>
    if expressionNeedsParenthesis node parentNode isRightHand then
      let st := st.write ("(")
      let st := render fuel node st
      st.write (")")
    else
      render fuel node st

/-- The shared `BinaryExpression`/`LogicalExpression` formatter (lines
781-794): the whole expression is additionally wrapped when the operator is
`in`. -/
def renderBinary (fuel : Nat) (self : Node) (operator : String) (left right : Node)
    (st : State) : State :=
  match fuel with
  | 0 => st
  | fuel + 1 =>
    if operator == "in" then
      let st := st.write ("(")
      let st := formatBinaryExpressionPart fuel st left self false
      let st := st.write (" " ++ operator ++ " ")
      let st := formatBinaryExpressionPart fuel st right self true
      st.write (")")
    else
      let st := formatBinaryExpressionPart fuel st left self false
      let st := st.write (" " ++ operator ++ " ")
      formatBinaryExpressionPart fuel st right self true

end

/-- The library entry point `astring(node, options)` (lines 953-969),
restricted to the string-output path. -/
def astring (fuel : Nat) (node : Node) (options : Options) : String :=
  ⟨(render fuel node (State.ofOptions options)).output⟩

def res (st : State) : State := { st with output := [] }

def State.core (st : State) : (String → Option Nat) × String × String × Bool :=
  (st.generator, st.indent, st.lineEnd, st.writeComments)

theorem core_write (st : State) (s : String) : (st.write s).core = st.core := rfl

theorem core_setIndentLevel (st : State) (n : Nat) :
    State.core { st with indentLevel := n } = st.core := rfl

theorem core_setNTS (st : State) (b : Bool) :
    State.core { st with noTrailingSemicolon := b } = st.core := rfl

theorem core_ite (c : Prop) [Decidable c] (a b : State) :
    (if c then a else b).core = if c then a.core else b.core := by
  split <;> rfl

set_option maxHeartbeats 2000000 in
theorem coreAll (fuel : Nat) :
    (∀ n st, (render fuel n st).core = st.core)
    ∧ (∀ l i le st, (renderStatementList fuel l i le st).core = st.core)
    ∧ (∀ b st, (renderBlock fuel b st).core = st.core)
    ∧ (∀ isIn l r b st, (renderForIn fuel isIn l r b st).core = st.core)
    ∧ (∀ cs ci si le st, (renderSwitchCases fuel cs ci si le st).core = st.core)
    ∧ (∀ l st, (renderCommaSep fuel l st).core = st.core)
    ∧ (∀ l st, (renderCommaSepTail fuel l st).core = st.core)
    ∧ (∀ l pi c st, (renderProperties fuel l pi c st).core = st.core)
    ∧ (∀ st ns, (formatSequence fuel st ns).core = st.core)
    ∧ (∀ a g i p b st, (renderFunction fuel a g i p b st).core = st.core)
    ∧ (∀ i sc b st, (renderClass fuel i sc b st).core = st.core)
    ∧ (∀ st n pn ir, (formatBinaryExpressionPart fuel st n pn ir).core = st.core)
    ∧ (∀ se op l r st, (renderBinary fuel se op l r st).core = st.core) := by
  induction fuel with
  | zero =>
      refine ⟨?_, ?_, ?_, ?_, ?_, ?_, ?_, ?_, ?_, ?_, ?_, ?_, ?_⟩ <;> intros <;> rfl
  | succ f ih =>
      obtain ⟨ihR, ihSL, ihB, ihFI, ihSC, ihCS, ihCST, ihP, ihFS, ihF, ihC, ihBEP, ihBin⟩ := ih
      refine ⟨?_, ?_, ?_, ?_, ?_, ?_, ?_, ?_, ?_, ?_, ?_, ?_, ?_⟩
      · intro n st
        cases n <;> simp only [render] <;> (repeat' split) <;>
          simp only [core_write, core_setIndentLevel, core_setNTS, core_ite, ite_self,
            ihR, ihSL, ihB, ihFI, ihSC, ihCS, ihCST, ihP, ihFS, ihF, ihC, ihBEP, ihBin]
      · intro l i le st
        cases l <;> simp only [renderStatementList, core_write, ihR, ihSL]
      · intro b st
        cases b <;> simp only [renderBlock, core_write, core_setIndentLevel, ihSL]
      · intro isIn l r b st
        simp only [renderForIn, core_write, core_setNTS, ihR]
      · intro cs ci si le st
        match cs with
        | [] => simp only [renderSwitchCases]
        | (t, cq) :: rest =>
            cases t <;> simp only [renderSwitchCases, core_write, ihR, ihSL, ihSC]
      · intro l st
        cases l <;> simp only [renderCommaSep, core_write, ihR, ihCST]
      · intro l st
        cases l <;> simp only [renderCommaSepTail, core_write, ihR, ihCST]
      · intro l pi c st
        match l with
        | [] => simp only [renderProperties]
        | [p] => simp only [renderProperties, core_write, ihR]
        | p :: q :: rest => simp only [renderProperties, core_write, ihR, ihP]
      · intro st ns
        cases ns <;> simp only [formatSequence, core_write, ihCS]
      · intro a g i p b st
        simp only [renderFunction, core_write, ihFS, ihR]
      · intro i sc b st
        cases sc <;> simp only [renderClass, core_write, ihR]
      · intro st n pn ir
        simp only [formatBinaryExpressionPart] 
        split <;> simp only [core_write, ihR]
      · intro se op l r st
        simp only [renderBinary]
        split <;> simp only [core_write, ihBEP]


theorem il_write (st : State) (s : String) : (st.write s).indentLevel = st.indentLevel := rfl

theorem il_setNTS (st : State) (b : Bool) :
    State.indentLevel { st with noTrailingSemicolon := b } = st.indentLevel := rfl

theorem il_set (st : State) (n : Nat) :
    State.indentLevel { st with indentLevel := n } = n := rfl

theorem il_ite (c : Prop) [Decidable c] (a b : State) :
    (if c then a else b).indentLevel = if c then a.indentLevel else b.indentLevel := by
  split <;> rfl

set_option maxHeartbeats 2000000 in
theorem indentAll (fuel : Nat) :
    (∀ n st, (render fuel n st).indentLevel = st.indentLevel)
    ∧ (∀ l i le st, (renderStatementList fuel l i le st).indentLevel = st.indentLevel)
    ∧ (∀ b st, (renderBlock fuel b st).indentLevel = st.indentLevel)
    ∧ (∀ isIn l r b st, (renderForIn fuel isIn l r b st).indentLevel = st.indentLevel)
    ∧ (∀ cs ci si le st, (renderSwitchCases fuel cs ci si le st).indentLevel = st.indentLevel)
    ∧ (∀ l st, (renderCommaSep fuel l st).indentLevel = st.indentLevel)
    ∧ (∀ l st, (renderCommaSepTail fuel l st).indentLevel = st.indentLevel)
    ∧ (∀ l pi c st, (renderProperties fuel l pi c st).indentLevel = st.indentLevel)
    ∧ (∀ st ns, (formatSequence fuel st ns).indentLevel = st.indentLevel)
    ∧ (∀ a g i p b st, (renderFunction fuel a g i p b st).indentLevel = st.indentLevel)
    ∧ (∀ i sc b st, (renderClass fuel i sc b st).indentLevel = st.indentLevel)
    ∧ (∀ st n pn ir, (formatBinaryExpressionPart fuel st n pn ir).indentLevel = st.indentLevel)
    ∧ (∀ se op l r st, (renderBinary fuel se op l r st).indentLevel = st.indentLevel) := by
  induction fuel with
  | zero =>
      refine ⟨?_, ?_, ?_, ?_, ?_, ?_, ?_, ?_, ?_, ?_, ?_, ?_, ?_⟩ <;> intros <;> rfl
  | succ f ih =>
      obtain ⟨ihR, ihSL, ihB, ihFI, ihSC, ihCS, ihCST, ihP, ihFS, ihF, ihC, ihBEP, ihBin⟩ := ih
      refine ⟨?_, ?_, ?_, ?_, ?_, ?_, ?_, ?_, ?_, ?_, ?_, ?_, ?_⟩
      · intro n st
        cases n <;> simp only [render] <;> (repeat' split) <;>
          simp only [il_write, il_setNTS, il_set, il_ite, ite_self, Nat.add_sub_cancel,
            ihR, ihSL, ihB, ihFI, ihSC, ihCS, ihCST, ihP, ihFS, ihF, ihC, ihBEP, ihBin]
      · intro l i le st
        cases l <;> simp only [renderStatementList, il_write, ihR, ihSL]
      · intro b st
        cases b <;>
          simp only [renderBlock, il_write, il_set, il_setNTS, ihSL, Nat.add_sub_cancel]
      · intro isIn l r b st
        simp only [renderForIn, il_write, il_setNTS, ihR]
      · intro cs ci si le st
        match cs with
        | [] => simp only [renderSwitchCases]
        | (t, cq) :: rest =>
            cases t <;> simp only [renderSwitchCases, il_write, ihR, ihSL, ihSC]
      · intro l st
        cases l <;> simp only [renderCommaSep, il_write, ihR, ihCST]
      · intro l st
        cases l <;> simp only [renderCommaSepTail, il_write, ihR, ihCST]
      · intro l pi c st
        match l with
        | [] => simp only [renderProperties]
        | [p] => simp only [renderProperties, il_write, ihR]
        | p :: q :: rest => simp only [renderProperties, il_write, ihR, ihP]
      · intro st ns
        cases ns <;> simp only [formatSequence, il_write, ihCS]
      · intro a g i p b st
        simp only [renderFunction, il_write, ihFS, ihR]
      · intro i sc b st
        cases sc <;> simp only [renderClass, il_write, ihR]
      · intro st n pn ir
        simp only [formatBinaryExpressionPart]
        split <;> simp only [il_write, ihR]
      · intro se op l r st
        simp only [renderBinary]
        split <;> simp only [il_write, ihBEP]


/-- Two states that agree on everything except the output buffer. The
equations are oriented right-to-left so that rewriting replaces the second
state's components with the first's. -/
structure Agree (a b : State) : Prop where
  gen : b.generator = a.generator
  ind : b.indent = a.indent
  lend : b.lineEnd = a.lineEnd
  il : b.indentLevel = a.indentLevel
  wc : b.writeComments = a.writeComments
  nts : b.noTrailingSemicolon = a.noTrailingSemicolon

theorem Agree.refl (st : State) : Agree st st := ⟨rfl, rfl, rfl, rfl, rfl, rfl⟩

/-- A state transformer `F` emits: started from any two states that agree
off-output, it appends the same text to both outputs and leaves two states
that again agree off-output; moreover it never turns `noTrailingSemicolon`
on (the flag is raised only transiently inside a for-initializer, whose
emission always ends by assigning `false`). Every formatter of the
generator is of this shape; this is what lets the emitted text of a
subexpression be spoken of independently of the text already in the
buffer. -/
def Emits (F : State → State) : Prop :=
  ∀ st₁ st₂, Agree st₁ st₂ →
    (∃ t, (F st₁).output = st₁.output ++ t ∧ (F st₂).output = st₂.output ++ t
      ∧ Agree (F st₁) (F st₂))
    ∧ ((F st₁).noTrailingSemicolon = true → st₁.noTrailingSemicolon = true)

theorem agree_write {st₁ st₂ : State} (h : Agree st₁ st₂) (s s' : String) :
    Agree (st₁.write s) (st₂.write s') :=
  ⟨h.gen, h.ind, h.lend, h.il, h.wc, h.nts⟩

theorem emits_id : Emits (fun st => st) :=
  fun _ _ h => ⟨⟨[], by simp, by simp, h⟩, fun hT => hT⟩

theorem emits_write (s : String) : Emits (fun st => st.write s) :=
  fun st₁ st₂ h => ⟨⟨s.data, rfl, rfl, agree_write h s s⟩, fun hT => hT⟩

theorem emits_write_dep (s : State → String)
    (hs : ∀ {a b}, Agree a b → s b = s a) :
    Emits (fun st => st.write (s st)) := by
  intro st₁ st₂ h
  dsimp only
  exact ⟨⟨(s st₁).data, rfl, by rw [hs h]; rfl, agree_write h (s st₁) (s st₂)⟩,
    fun hT => hT⟩

theorem emits_comp {F G : State → State} (hF : Emits F) (hG : Emits G) :
    Emits (fun st => G (F st)) := by
  intro st₁ st₂ h
  obtain ⟨⟨t1, a1, b1, g1⟩, m1⟩ := hF st₁ st₂ h
  obtain ⟨⟨t2, a2, b2, g2⟩, m2⟩ := hG (F st₁) (F st₂) g1
  exact ⟨⟨t1 ++ t2, by rw [a2, a1, List.append_assoc],
    by rw [b2, b1, List.append_assoc], g2⟩, fun hT => m1 (m2 hT)⟩

theorem emits_update_il (g : State → Nat)
    (hg : ∀ {a b}, Agree a b → g b = g a) :
    Emits (fun st => { st with indentLevel := g st }) := by
  intro st₁ st₂ h
  exact ⟨⟨[], by simp, by simp,
    ⟨h.gen, h.ind, h.lend, by simp [hg h], h.wc, h.nts⟩⟩, fun hT => hT⟩

theorem emits_init_unit {fuel : Nat} {i : Node} (hI : Emits (render fuel i)) :
    Emits (fun st =>
      { render fuel i { st with noTrailingSemicolon := true }
        with noTrailingSemicolon := false }) := by
  intro st₁ st₂ h
  obtain ⟨⟨t, a1, b1, g1⟩, _⟩ :=
    hI { st₁ with noTrailingSemicolon := true } { st₂ with noTrailingSemicolon := true }
      ⟨h.gen, h.ind, h.lend, h.il, h.wc, rfl⟩
  refine ⟨⟨t, a1, b1, ⟨g1.gen, g1.ind, g1.lend, g1.il, g1.wc, rfl⟩⟩, fun hT => ?_⟩
  exact absurd hT (by simp)

theorem emits_ite (c : Prop) [Decidable c] {F G : State → State}
    (hF : Emits F) (hG : Emits G) :
    Emits (fun st => if c then F st else G st) := by
  by_cases hc : c
  · simpa [hc] using hF
  · simpa [hc] using hG

theorem emits_ite_state (c : State → Bool)
    (hc : ∀ {a b}, Agree a b → c b = c a) {F G : State → State}
    (hF : Emits F) (hG : Emits G) :
    Emits (fun st => if c st then F st else G st) := by
  intro st₁ st₂ h
  dsimp only
  rw [hc h]
  cases hcc : c st₁ <;> simp only [Bool.false_eq_true, if_false, if_true]
  · exact hG st₁ st₂ h
  · exact hF st₁ st₂ h

theorem emits_dep {α : Sort _} (a : State → α)
    (ha : ∀ {s₁ s₂}, Agree s₁ s₂ → a s₂ = a s₁) (H : α → State → State)
    (hH : ∀ k, Emits (H k)) :
    Emits (fun st => H (a st) st) := by
  intro st₁ st₂ h
  dsimp only
  rw [ha h]
  exact hH (a st₁) st₁ st₂ h


set_option maxHeartbeats 4000000 in
/-- Every function of the renderer emits: it appends to the output a text
that does not depend on the text already present, and the resulting states
agree off-output whenever the starting states did. -/
theorem emitsAll (fuel : Nat) :
    (∀ n, Emits (render fuel n))
    ∧ (∀ l i le, Emits (renderStatementList fuel l i le))
    ∧ (∀ b, Emits (renderBlock fuel b))
    ∧ (∀ isIn l r b, Emits (renderForIn fuel isIn l r b))
    ∧ (∀ cs ci si le, Emits (renderSwitchCases fuel cs ci si le))
    ∧ (∀ l, Emits (renderCommaSep fuel l))
    ∧ (∀ l, Emits (renderCommaSepTail fuel l))
    ∧ (∀ l pi c, Emits (renderProperties fuel l pi c))
    ∧ (∀ ns, Emits (fun st => formatSequence fuel st ns))
    ∧ (∀ a g i p b, Emits (renderFunction fuel a g i p b))
    ∧ (∀ i sc b, Emits (renderClass fuel i sc b))
    ∧ (∀ n pn ir, Emits (fun st => formatBinaryExpressionPart fuel st n pn ir))
    ∧ (∀ se op l r, Emits (renderBinary fuel se op l r)) := by
  induction fuel with
  | zero =>
      refine ⟨?_, ?_, ?_, ?_, ?_, ?_, ?_, ?_, ?_, ?_, ?_, ?_, ?_⟩ <;> intros <;>
        exact emits_id
  | succ f ih =>
      obtain ⟨ihR, ihSL, ihB, ihFI, ihSC, ihCS, ihCST, ihP, ihFS, ihF, ihC, ihBEP, ihBin⟩ := ih
      refine ⟨?_, ?_, ?_, ?_, ?_, ?_, ?_, ?_, ?_, ?_, ?_, ?_, ?_⟩
      · intro n
        cases n with
        | Program body =>
            show Emits (fun st =>
              renderStatementList f body (strRepeat st.indent st.indentLevel) st.lineEnd st)
            exact emits_dep (fun st => (strRepeat st.indent st.indentLevel, st.lineEnd))
              (fun h => by simp only [h.ind, h.il, h.lend])
              (fun p => renderStatementList f body p.1 p.2)
              (fun p => ihSL body p.1 p.2)
        | BlockStatement body => exact ihB body
        | ClassBody body => exact ihB body
        | EmptyStatement => exact emits_write (";")
        | ExpressionStatement e =>
            show Emits (fun st =>
              State.write
                (if (EXPRESSIONS_PRECEDENCE (typeOf e) == some 17
                    || (EXPRESSIONS_PRECEDENCE (typeOf e) == some 3
                        && (match leftOf e with
                            | some l => headChar (typeOf l) == some 'O'
                            | none => false))) = true then
                  ((render f e (st.write ("("))).write (")"))
                else render f e st) (";"))
            exact emits_comp
              (emits_ite _
                (emits_comp (emits_comp (emits_write ("(")) (ihR e)) (emits_write (")")))
                (ihR e))
              (emits_write (";"))
        | IfStatement test consequent alternate =>
            cases alternate with
            | none =>
                show Emits (fun st =>
                  render f consequent ((render f test (st.write ("if ("))).write (") ")))
                exact emits_comp
                  (emits_comp (emits_comp (emits_write ("if (")) (ihR test))
                    (emits_write (") ")))
                  (ihR consequent)
            | some a =>
                show Emits (fun st =>
                  render f a ((render f consequent
                    ((render f test (st.write ("if ("))).write (") "))).write (" else ")))
                exact emits_comp
                  (emits_comp
                    (emits_comp
                      (emits_comp (emits_comp (emits_write ("if (")) (ihR test))
                        (emits_write (") ")))
                      (ihR consequent))
                    (emits_write (" else ")))
                  (ihR a)
        | WhileStatement test body =>
            show Emits (fun st =>
              render f body ((render f test (st.write ("while ("))).write (") ")))
            exact emits_comp
              (emits_comp (emits_comp (emits_write ("while (")) (ihR test))
                (emits_write (") ")))
              (ihR body)
        | DoWhileStatement body test =>
            show Emits (fun st =>
              (render f test ((render f body (st.write ("do "))).write (" while ("))).write
                (");"))
            exact emits_comp
              (emits_comp (emits_comp (emits_comp (emits_write ("do ")) (ihR body))
                (emits_write (" while ("))) (ihR test))
              (emits_write (");"))
        | ForStatement init test update body =>
            cases init with
            | none =>
              cases test with
              | none =>
                cases update with
                | none =>
                    have hdef : render (f + 1) (.ForStatement none none none body)
                        = fun st => render f body ((((st.write ("for (")).write ("; ")).write ("; ")).write (") ")) := rfl
                    rw [hdef]
                    exact emits_comp (emits_comp (emits_comp (emits_comp (emits_write ("for (")) (emits_write ("; "))) (emits_write ("; "))) (emits_write (") "))) (ihR body)
                | some u =>
                    have hdef : render (f + 1) (.ForStatement none none (some u) body)
                        = fun st => render f body ((render f u (((st.write ("for (")).write ("; ")).write ("; "))).write (") ")) := rfl
                    rw [hdef]
                    exact emits_comp (emits_comp (emits_comp (emits_comp (emits_comp (emits_write ("for (")) (emits_write ("; "))) (emits_write ("; "))) (ihR u)) (emits_write (") "))) (ihR body)
              | some t =>
                cases update with
                | none =>
                    have hdef : render (f + 1) (.ForStatement none (some t) none body)
                        = fun st => render f body (((render f t ((st.write ("for (")).write ("; "))).write ("; ")).write (") ")) := rfl
                    rw [hdef]
                    exact emits_comp (emits_comp (emits_comp (emits_comp (emits_comp (emits_write ("for (")) (emits_write ("; "))) (ihR t)) (emits_write ("; "))) (emits_write (") "))) (ihR body)
                | some u =>
                    have hdef : render (f + 1) (.ForStatement none (some t) (some u) body)
                        = fun st => render f body ((render f u ((render f t ((st.write ("for (")).write ("; "))).write ("; "))).write (") ")) := rfl
                    rw [hdef]
                    exact emits_comp (emits_comp (emits_comp (emits_comp (emits_comp (emits_comp (emits_write ("for (")) (emits_write ("; "))) (ihR t)) (emits_write ("; "))) (ihR u)) (emits_write (") "))) (ihR body)
            | some i =>
              cases test with
              | none =>
                cases update with
                | none =>
                    have hdef : render (f + 1) (.ForStatement (some i) none none body)
                        = fun st => render f body (((({ render f i { (st.write ("for (")) with noTrailingSemicolon := true } with noTrailingSemicolon := false }).write ("; ")).write ("; ")).write (") ")) := rfl
                    rw [hdef]
                    exact emits_comp (emits_comp (emits_comp (emits_comp (emits_comp (emits_write ("for (")) (emits_init_unit (ihR i))) (emits_write ("; "))) (emits_write ("; "))) (emits_write (") "))) (ihR body)
                | some u =>
                    have hdef : render (f + 1) (.ForStatement (some i) none (some u) body)
                        = fun st => render f body ((render f u ((({ render f i { (st.write ("for (")) with noTrailingSemicolon := true } with noTrailingSemicolon := false }).write ("; ")).write ("; "))).write (") ")) := rfl
                    rw [hdef]
                    exact emits_comp (emits_comp (emits_comp (emits_comp (emits_comp (emits_comp (emits_write ("for (")) (emits_init_unit (ihR i))) (emits_write ("; "))) (emits_write ("; "))) (ihR u)) (emits_write (") "))) (ihR body)
              | some t =>
                cases update with
                | none =>
                    have hdef : render (f + 1) (.ForStatement (some i) (some t) none body)
                        = fun st => render f body (((render f t (({ render f i { (st.write ("for (")) with noTrailingSemicolon := true } with noTrailingSemicolon := false }).write ("; "))).write ("; ")).write (") ")) := rfl
                    rw [hdef]
                    exact emits_comp (emits_comp (emits_comp (emits_comp (emits_comp (emits_comp (emits_write ("for (")) (emits_init_unit (ihR i))) (emits_write ("; "))) (ihR t)) (emits_write ("; "))) (emits_write (") "))) (ihR body)
                | some u =>
                    have hdef : render (f + 1) (.ForStatement (some i) (some t) (some u) body)
                        = fun st => render f body ((render f u ((render f t (({ render f i { (st.write ("for (")) with noTrailingSemicolon := true } with noTrailingSemicolon := false }).write ("; "))).write ("; "))).write (") ")) := rfl
                    rw [hdef]
                    exact emits_comp (emits_comp (emits_comp (emits_comp (emits_comp (emits_comp (emits_comp (emits_write ("for (")) (emits_init_unit (ihR i))) (emits_write ("; "))) (ihR t)) (emits_write ("; "))) (ihR u)) (emits_write (") "))) (ihR body)
        | ForInStatement l r b => exact ihFI true l r b
        | ForOfStatement l r b => exact ihFI false l r b
        | SwitchStatement discriminant cases =>
            show Emits (fun st =>
              (fun (p : String × String) (st0 : State) =>
                let s1 : State := { st0 with indentLevel := st0.indentLevel + 2 }
                let s2 : State := s1.write ("switch (")
                let s3 : State := render f discriminant s2
                let s4 : State := s3.write (") \x7b" ++ s3.lineEnd)
                let s5 : State :=
                  renderSwitchCases f cases (p.1 ++ p.2) (p.1 ++ p.2 ++ p.2) s4.lineEnd s4
                let s6 : State := { s5 with indentLevel := s5.indentLevel - 2 }
                s6.write (p.1 ++ "\x7d"))
              (strRepeat st.indent st.indentLevel, st.indent) st)
            exact emits_dep (fun st => (strRepeat st.indent st.indentLevel, st.indent))
              (fun h => by simp only [h.ind, h.il])
              (fun p st0 =>
                let s1 : State := { st0 with indentLevel := st0.indentLevel + 2 }
                let s2 : State := s1.write ("switch (")
                let s3 : State := render f discriminant s2
                let s4 : State := s3.write (") \x7b" ++ s3.lineEnd)
                let s5 : State :=
                  renderSwitchCases f cases (p.1 ++ p.2) (p.1 ++ p.2 ++ p.2) s4.lineEnd s4
                let s6 : State := { s5 with indentLevel := s5.indentLevel - 2 }
                s6.write (p.1 ++ "\x7d"))
              (fun p =>
                emits_comp
                  (emits_comp
                    (emits_comp
                      (emits_comp
                        (emits_comp
                          (emits_update_il (fun s => s.indentLevel + 2)
                            (fun h => by simp only [h.il]))
                          (emits_write ("switch (")))
                        (ihR discriminant))
                      (emits_write_dep (fun s => ") \x7b" ++ s.lineEnd)
                        (fun h => by simp only [h.lend])))
                    (emits_dep (fun s => s.lineEnd) (fun h => h.lend)
                      (fun le => renderSwitchCases f cases (p.1 ++ p.2) (p.1 ++ p.2 ++ p.2) le)
                      (fun le => ihSC cases (p.1 ++ p.2) (p.1 ++ p.2 ++ p.2) le)))
                  (emits_comp
                    (emits_update_il (fun s => s.indentLevel - 2)
                      (fun h => by simp only [h.il]))
                    (emits_write (p.1 ++ "\x7d"))))
        | ReturnStatement argument =>
            cases argument with
            | none =>
                show Emits (fun st => (st.write ("return")).write (";"))
                exact emits_comp (emits_write ("return")) (emits_write (";"))
            | some a =>
                show Emits (fun st =>
                  (render f a ((st.write ("return")).write (" "))).write (";"))
                exact emits_comp
                  (emits_comp (emits_comp (emits_write ("return")) (emits_write (" ")))
                    (ihR a))
                  (emits_write (";"))
        | ThrowStatement argument =>
            show Emits (fun st => (render f argument (st.write ("throw "))).write (";"))
            exact emits_comp (emits_comp (emits_write ("throw ")) (ihR argument))
              (emits_write (";"))
        | DebuggerStatement =>
            show Emits (fun st => st.write ("debugger;" ++ st.lineEnd))
            exact emits_write_dep (fun st => "debugger;" ++ st.lineEnd)
              (fun h => by simp only [h.lend])
        | VariableDeclaration kind declarations =>
            show Emits (fun st =>
              (fun st' : State =>
                if st'.noTrailingSemicolon != true then st'.write (";") else st')
              (renderCommaSep f declarations (st.write (kind ++ " "))))
            exact emits_comp
              (emits_comp (emits_write (kind ++ " ")) (ihCS declarations))
              (emits_ite_state (fun st => st.noTrailingSemicolon != true)
                (fun h => by simp only [h.nts]) (emits_write (";")) emits_id)
        | VariableDeclarator id init =>
            cases init with
            | none => exact ihR id
            | some i =>
                show Emits (fun st => render f i ((render f id st).write (" = ")))
                exact emits_comp (emits_comp (ihR id) (emits_write (" = "))) (ihR i)
        | FunctionDeclaration a g i p b => exact ihF a g i p b
        | FunctionExpression a g i p b => exact ihF a g i p b
        | ClassDeclaration i sc b => exact ihC i sc b
        | ClassExpression i sc b => exact ihC i sc b
        | ArrowFunctionExpression async params body =>
            have harrowBody : Emits (fun st =>
                if (headChar (typeOf body) == some 'O') = true then
                  (render f body (st.write ("("))).write (")")
                else render f body st) :=
              emits_ite _
                (emits_comp (emits_comp (emits_write ("(")) (ihR body))
                  (emits_write (")")))
                (ihR body)
            have hpre : Emits (fun st => if async = true then st.write ("async ") else st) :=
              emits_ite _ (emits_write ("async ")) emits_id
            cases params with
            | none =>
                have hdef : render (f + 1) (.ArrowFunctionExpression async none body)
                    = fun st =>
                      (fun st2 : State =>
                        if (headChar (typeOf body) == some 'O') = true then
                          (render f body (st2.write ("("))).write (")")
                        else render f body st2)
                      ((if async = true then st.write ("async ") else st).write
                        (" => ")) := rfl
                rw [hdef]
                exact emits_comp (emits_comp hpre (emits_write (" => "))) harrowBody
            | some ps =>
                match ps with
                | [] =>
                    have hdef : render (f + 1)
                        (.ArrowFunctionExpression async (some []) body)
                        = fun st =>
                          (fun st2 : State =>
                            if (headChar (typeOf body) == some 'O') = true then
                              (render f body (st2.write ("("))).write (")")
                            else render f body st2)
                          ((formatSequence f
                            (if async = true then st.write ("async ") else st)
                            (some [])).write (" => ")) := rfl
                    rw [hdef]
                    exact emits_comp
                      (emits_comp (emits_comp hpre (ihFS (some []))) (emits_write (" => ")))
                      harrowBody
                | [p] =>
                    have hdef : render (f + 1)
                        (.ArrowFunctionExpression async (some [p]) body)
                        = fun st =>
                          (fun st2 : State =>
                            if (headChar (typeOf body) == some 'O') = true then
                              (render f body (st2.write ("("))).write (")")
                            else render f body st2)
                          (((fun st1 : State =>
                            if (headChar (typeOf p) == some 'I') = true then
                              st1.write (nameOf p)
                            else formatSequence f st1 (some [p]))
                            (if async = true then st.write ("async ") else st)).write
                            (" => ")) := rfl
                    rw [hdef]
                    exact emits_comp
                      (emits_comp
                        (emits_comp hpre
                          (emits_ite _ (emits_write (nameOf p)) (ihFS (some [p]))))
                        (emits_write (" => ")))
                      harrowBody
                | p :: q :: rest =>
                    have hdef : render (f + 1)
                        (.ArrowFunctionExpression async (some (p :: q :: rest)) body)
                        = fun st =>
                          (fun st2 : State =>
                            if (headChar (typeOf body) == some 'O') = true then
                              (render f body (st2.write ("("))).write (")")
                            else render f body st2)
                          ((formatSequence f
                            (if async = true then st.write ("async ") else st)
                            (some (p :: q :: rest))).write (" => ")) := rfl
                    rw [hdef]
                    exact emits_comp
                      (emits_comp (emits_comp hpre (ihFS (some (p :: q :: rest))))
                        (emits_write (" => ")))
                      harrowBody
        | ThisExpression => exact emits_write ("this")
        | Super => exact emits_write ("super")
        | RestElement argument =>
            show Emits (fun st => render f argument (st.write ("...")))
            exact emits_comp (emits_write ("...")) (ihR argument)
        | SpreadElement argument =>
            show Emits (fun st => render f argument (st.write ("...")))
            exact emits_comp (emits_write ("...")) (ihR argument)
        | SequenceExpression expressions => exact ihFS (some expressions)
        | UnaryExpression operator prfx argument =>
            cases prfx with
            | false =>
                show Emits (fun st => (render f argument st).write (operator))
                exact emits_comp (ihR argument) (emits_write (operator))
            | true =>
                show Emits (fun st =>
                  (fun st' : State =>
                    if jsLt (EXPRESSIONS_PRECEDENCE (typeOf argument))
                        (EXPRESSIONS_PRECEDENCE ("UnaryExpression")) = true then
                      (render f argument (st'.write ("("))).write (")")
                    else render f argument st')
                  (if operator.length > 1 then (st.write (operator)).write (" ")
                   else st.write (operator)))
                exact emits_comp
                  (emits_ite _
                    (emits_comp (emits_write (operator)) (emits_write (" ")))
                    (emits_write (operator)))
                  (emits_ite _
                    (emits_comp (emits_comp (emits_write ("(")) (ihR argument))
                      (emits_write (")")))
                    (ihR argument))
        | UpdateExpression operator prfx argument =>
            cases prfx with
            | true =>
                show Emits (fun st => render f argument (st.write (operator)))
                exact emits_comp (emits_write (operator)) (ihR argument)
            | false =>
                show Emits (fun st => (render f argument st).write (operator))
                exact emits_comp (ihR argument) (emits_write (operator))
        | AssignmentExpression operator left right =>
            show Emits (fun st =>
              render f right ((render f left st).write (" " ++ operator ++ " ")))
            exact emits_comp (emits_comp (ihR left) (emits_write (" " ++ operator ++ " ")))
              (ihR right)
        | AssignmentPattern left right =>
            show Emits (fun st => render f right ((render f left st).write (" = ")))
            exact emits_comp (emits_comp (ihR left) (emits_write (" = "))) (ihR right)
        | BinaryExpression op l r => exact ihBin (.BinaryExpression op l r) op l r
        | LogicalExpression op l r => exact ihBin (.LogicalExpression op l r) op l r
        | ConditionalExpression test consequent alternate =>
            show Emits (fun st =>
              render f alternate
                (((render f consequent
                  ((if jsGt (EXPRESSIONS_PRECEDENCE (typeOf test))
                      (EXPRESSIONS_PRECEDENCE ("ConditionalExpression")) = true then
                    render f test st
                  else
                    ((render f test (st.write ("("))).write (")"))).write (" ? "))).write
                  (" : "))))
            exact emits_comp
              (emits_comp
                (emits_comp
                  (emits_comp
                    (emits_ite _ (ihR test)
                      (emits_comp (emits_comp (emits_write ("(")) (ihR test))
                        (emits_write (")"))))
                    (emits_write (" ? ")))
                  (ihR consequent))
                (emits_write (" : ")))
              (ihR alternate)
        | NewExpression callee arguments =>
            show Emits (fun st =>
              formatSequence f
                ((fun st' : State =>
                  if (jsLt (EXPRESSIONS_PRECEDENCE (typeOf callee))
                      (EXPRESSIONS_PRECEDENCE ("CallExpression"))
                      || hasCallExpression callee) = true then
                    (render f callee (st'.write ("("))).write (")")
                  else render f callee st')
                  (st.write ("new ")))
                (some arguments))
            exact emits_comp
              (emits_comp (emits_write ("new "))
                (emits_ite _
                  (emits_comp (emits_comp (emits_write ("(")) (ihR callee))
                    (emits_write (")")))
                  (ihR callee)))
              (ihFS (some arguments))
        | CallExpression callee arguments =>
            show Emits (fun st =>
              formatSequence f
                ((fun st' : State =>
                  if jsLt (EXPRESSIONS_PRECEDENCE (typeOf callee))
                      (EXPRESSIONS_PRECEDENCE ("CallExpression")) = true then
                    (render f callee (st'.write ("("))).write (")")
                  else render f callee st') st)
                (some arguments))
            exact emits_comp
              (emits_ite _
                (emits_comp (emits_comp (emits_write ("(")) (ihR callee))
                  (emits_write (")")))
                (ihR callee))
              (ihFS (some arguments))
        | MemberExpression object property computed =>
            have hobj : Emits (fun st =>
                if jsLt (EXPRESSIONS_PRECEDENCE (typeOf object))
                    (EXPRESSIONS_PRECEDENCE ("MemberExpression")) = true then
                  (render f object (st.write ("("))).write (")")
                else render f object st) :=
              emits_ite _
                (emits_comp (emits_comp (emits_write ("(")) (ihR object))
                  (emits_write (")")))
                (ihR object)
            cases computed with
            | true =>
                show Emits (fun st =>
                  (render f property
                    (((fun st' : State =>
                      if jsLt (EXPRESSIONS_PRECEDENCE (typeOf object))
                          (EXPRESSIONS_PRECEDENCE ("MemberExpression")) = true then
                        (render f object (st'.write ("("))).write (")")
                      else render f object st') st).write ("["))).write ("]"))
                exact emits_comp
                  (emits_comp (emits_comp hobj (emits_write ("["))) (ihR property))
                  (emits_write ("]"))
            | false =>
                show Emits (fun st =>
                  render f property
                    (((fun st' : State =>
                      if jsLt (EXPRESSIONS_PRECEDENCE (typeOf object))
                          (EXPRESSIONS_PRECEDENCE ("MemberExpression")) = true then
                        (render f object (st'.write ("("))).write (")")
                      else render f object st') st).write (".")))
                exact emits_comp (emits_comp hobj (emits_write ("."))) (ihR property)
        | ObjectExpression properties =>
            cases properties with
            | nil =>
                show Emits (fun st =>
                  (fun (p : String) (st0 : State) =>
                    let s1 : State := { st0 with indentLevel := st0.indentLevel + 1 }
                    let s2 : State := s1.write ("\x7b")
                    let s3 : State := s2.write ("\x7d")
                    { s3 with indentLevel := s3.indentLevel - 1 })
                  (strRepeat st.indent st.indentLevel) st)
                exact emits_dep (fun st => strRepeat st.indent st.indentLevel)
                  (fun h => by simp only [h.ind, h.il])
                  (fun p st0 =>
                    let s1 : State := { st0 with indentLevel := st0.indentLevel + 1 }
                    let s2 : State := s1.write ("\x7b")
                    let s3 : State := s2.write ("\x7d")
                    { s3 with indentLevel := s3.indentLevel - 1 })
                  (fun p =>
                    emits_comp
                      (emits_comp
                        (emits_comp
                          (emits_update_il (fun s => s.indentLevel + 1)
                            (fun h => by simp only [h.il]))
                          (emits_write ("\x7b")))
                        (emits_write ("\x7d")))
                      (emits_update_il (fun s => s.indentLevel - 1)
                        (fun h => by simp only [h.il])))
            | cons q qs =>
                show Emits (fun st =>
                  (fun (p : String × String) (st0 : State) =>
                    let s1 : State := { st0 with indentLevel := st0.indentLevel + 1 }
                    let s2 : State := s1.write ("\x7b")
                    let s3 : State := s2.write (s2.lineEnd)
                    let s4 : State :=
                      renderProperties f (q :: qs) (p.1 ++ p.2) ("," ++ s3.lineEnd) s3
                    let s5 : State := s4.write (s4.lineEnd)
                    let s6 : State := s5.write (p.1 ++ "\x7d")
                    { s6 with indentLevel := s6.indentLevel - 1 })
                  (strRepeat st.indent st.indentLevel, st.indent) st)
                exact emits_dep (fun st => (strRepeat st.indent st.indentLevel, st.indent))
                  (fun h => by simp only [h.ind, h.il])
                  (fun p st0 =>
                    let s1 : State := { st0 with indentLevel := st0.indentLevel + 1 }
                    let s2 : State := s1.write ("\x7b")
                    let s3 : State := s2.write (s2.lineEnd)
                    let s4 : State :=
                      renderProperties f (q :: qs) (p.1 ++ p.2) ("," ++ s3.lineEnd) s3
                    let s5 : State := s4.write (s4.lineEnd)
                    let s6 : State := s5.write (p.1 ++ "\x7d")
                    { s6 with indentLevel := s6.indentLevel - 1 })
                  (fun p =>
                    emits_comp
                      (emits_comp
                        (emits_comp
                          (emits_comp
                            (emits_comp
                              (emits_comp
                                (emits_update_il (fun s => s.indentLevel + 1)
                                  (fun h => by simp only [h.il]))
                                (emits_write ("\x7b")))
                              (emits_write_dep (fun s => s.lineEnd) (fun h => h.lend)))
                            (emits_dep (fun s => s.lineEnd) (fun h => h.lend)
                              (fun le => renderProperties f (q :: qs) (p.1 ++ p.2) ("," ++ le))
                              (fun le => ihP (q :: qs) (p.1 ++ p.2) ("," ++ le))))
                          (emits_write_dep (fun s => s.lineEnd) (fun h => h.lend)))
                        (emits_write (p.1 ++ "\x7d")))
                      (emits_update_il (fun s => s.indentLevel - 1)
                        (fun h => by simp only [h.il])))
        | Property shorthand computed key value =>
            have hkey : Emits (fun st =>
                if computed = true then
                  (render f key (st.write ("["))).write ("]")
                else render f key st) :=
              emits_ite _
                (emits_comp (emits_comp (emits_write ("[")) (ihR key))
                  (emits_write ("]")))
                (ihR key)
            cases shorthand with
            | true => exact ihR value
            | false =>
                show Emits (fun st =>
                  render f value
                    (((fun st' : State =>
                      if computed = true then
                        (render f key (st'.write ("["))).write ("]")
                      else render f key st') st).write (": ")))
                exact emits_comp (emits_comp hkey (emits_write (": "))) (ihR value)
        | ObjectPattern properties =>
            show Emits (fun st =>
              (renderCommaSep f properties (st.write ("\x7b"))).write ("\x7d"))
            exact emits_comp (emits_comp (emits_write ("\x7b")) (ihCS properties))
              (emits_write ("\x7d"))
        | Identifier name => exact emits_write (name)
        | Literal raw => exact emits_write (raw)
      · intro l i le
        cases l with
        | nil => exact emits_id
        | cons x xs =>
            show Emits (fun st =>
              renderStatementList f xs i le ((render f x (st.write (i))).write (le)))
            exact emits_comp
              (emits_comp (emits_comp (emits_write (i)) (ihR x)) (emits_write (le)))
              (ihSL xs i le)
      · intro b
        cases b with
        | nil =>
            show Emits (fun st =>
              (fun (p : String) (st0 : State) =>
                let s1 : State := { st0 with indentLevel := st0.indentLevel + 1 }
                let s2 : State := s1.write ("\x7b")
                let s3 : State := s2.write ("\x7d")
                { s3 with indentLevel := s3.indentLevel - 1 })
              (strRepeat st.indent st.indentLevel) st)
            exact emits_dep (fun st => strRepeat st.indent st.indentLevel)
              (fun h => by simp only [h.ind, h.il])
              (fun p st0 =>
                let s1 : State := { st0 with indentLevel := st0.indentLevel + 1 }
                let s2 : State := s1.write ("\x7b")
                let s3 : State := s2.write ("\x7d")
                { s3 with indentLevel := s3.indentLevel - 1 })
              (fun p =>
                emits_comp
                  (emits_comp
                    (emits_comp
                      (emits_update_il (fun s => s.indentLevel + 1)
                        (fun h => by simp only [h.il]))
                      (emits_write ("\x7b")))
                    (emits_write ("\x7d")))
                  (emits_update_il (fun s => s.indentLevel - 1)
                    (fun h => by simp only [h.il])))
        | cons x xs =>
            show Emits (fun st =>
              (fun (p : String × String) (st0 : State) =>
                let s1 : State := { st0 with indentLevel := st0.indentLevel + 1 }
                let s2 : State := s1.write ("\x7b")
                let s3 : State := s2.write (s2.lineEnd)
                let s4 : State := renderStatementList f (x :: xs) (p.1 ++ p.2) s3.lineEnd s3
                let s5 : State := s4.write (p.1)
                let s6 : State := s5.write ("\x7d")
                { s6 with indentLevel := s6.indentLevel - 1 })
              (strRepeat st.indent st.indentLevel, st.indent) st)
            exact emits_dep (fun st => (strRepeat st.indent st.indentLevel, st.indent))
              (fun h => by simp only [h.ind, h.il])
              (fun p st0 =>
                let s1 : State := { st0 with indentLevel := st0.indentLevel + 1 }
                let s2 : State := s1.write ("\x7b")
                let s3 : State := s2.write (s2.lineEnd)
                let s4 : State := renderStatementList f (x :: xs) (p.1 ++ p.2) s3.lineEnd s3
                let s5 : State := s4.write (p.1)
                let s6 : State := s5.write ("\x7d")
                { s6 with indentLevel := s6.indentLevel - 1 })
              (fun p =>
                emits_comp
                  (emits_comp
                    (emits_comp
                      (emits_comp
                        (emits_comp
                          (emits_comp
                            (emits_update_il (fun s => s.indentLevel + 1)
                              (fun h => by simp only [h.il]))
                            (emits_write ("\x7b")))
                          (emits_write_dep (fun s => s.lineEnd) (fun h => h.lend)))
                        (emits_dep (fun s => s.lineEnd) (fun h => h.lend)
                          (fun le => renderStatementList f (x :: xs) (p.1 ++ p.2) le)
                          (fun le => ihSL (x :: xs) (p.1 ++ p.2) le)))
                      (emits_write (p.1)))
                    (emits_write ("\x7d")))
                  (emits_update_il (fun s => s.indentLevel - 1)
                    (fun h => by simp only [h.il])))
      · intro isIn l r b
        have hdef : renderForIn (f + 1) isIn l r b = fun st =>
          render f b
            ((render f r
              (({ render f l
                  { st.write ("for (") with noTrailingSemicolon := true }
                with noTrailingSemicolon := false }).write
                (if isIn then " in " else " of "))).write (") ")) := rfl
        rw [hdef]
        exact emits_comp
          (emits_comp
            (emits_comp
              (emits_comp
                (emits_comp (emits_write ("for (")) (emits_init_unit (ihR l)))
                (emits_write (if isIn then " in " else " of ")))
              (ihR r))
            (emits_write (") ")))
          (ihR b)
      · intro cs ci si le
        match cs with
        | [] => exact emits_id
        | (t, cq) :: rest =>
            cases t with
            | none =>
                show Emits (fun st =>
                  renderSwitchCases f rest ci si le
                    (renderStatementList f cq si le
                      (st.write (ci ++ "default:" ++ le))))
                exact emits_comp
                  (emits_comp (emits_write (ci ++ "default:" ++ le)) (ihSL cq si le))
                  (ihSC rest ci si le)
            | some tt =>
                show Emits (fun st =>
                  renderSwitchCases f rest ci si le
                    (renderStatementList f cq si le
                      ((render f tt (st.write (ci ++ "case "))).write (":" ++ le))))
                exact emits_comp
                  (emits_comp
                    (emits_comp
                      (emits_comp (emits_write (ci ++ "case ")) (ihR tt))
                      (emits_write (":" ++ le)))
                    (ihSL cq si le))
                  (ihSC rest ci si le)
      · intro l
        cases l with
        | nil => exact emits_id
        | cons x xs =>
            show Emits (fun st => renderCommaSepTail f xs (render f x st))
            exact emits_comp (ihR x) (ihCST xs)
      · intro l
        cases l with
        | nil => exact emits_id
        | cons x xs =>
            show Emits (fun st => renderCommaSepTail f xs (render f x (st.write (", "))))
            exact emits_comp (emits_comp (emits_write (", ")) (ihR x)) (ihCST xs)
      · intro l pi c
        match l with
        | [] => exact emits_id
        | [p] =>
            show Emits (fun st => render f p (st.write (pi)))
            exact emits_comp (emits_write (pi)) (ihR p)
        | p :: q :: rest =>
            show Emits (fun st =>
              renderProperties f (q :: rest) pi c
                ((render f p (st.write (pi))).write (c)))
            exact emits_comp
              (emits_comp (emits_comp (emits_write (pi)) (ihR p)) (emits_write (c)))
              (ihP (q :: rest) pi c)
      · intro ns
        cases ns with
        | none =>
            show Emits (fun st => (st.write ("(")).write (")"))
            exact emits_comp (emits_write ("(")) (emits_write (")"))
        | some l =>
            show Emits (fun st => (renderCommaSep f l (st.write ("("))).write (")"))
            exact emits_comp (emits_comp (emits_write ("(")) (ihCS l)) (emits_write (")"))
      · intro a g i p b
        show Emits (fun st =>
          render f b
            ((formatSequence f
              (st.write
                ((if a then "async " else "")
                  ++ (if g then "function* " else "function ")
                  ++ (match i with
                      | some n => n
                      | none => "")))
              p).write (" ")))
        exact emits_comp
          (emits_comp
            (emits_comp
              (emits_write
                ((if a then "async " else "")
                  ++ (if g then "function* " else "function ")
                  ++ (match i with
                      | some n => n
                      | none => "")))
              (ihFS p))
            (emits_write (" ")))
          (ihR b)
      · intro i sc b
        cases sc with
        | none =>
            show Emits (fun st =>
              render f b
                (st.write
                  ("class " ++ (match i with
                                | some n => n
                                | none => " "))))
            exact emits_comp
              (emits_write
                ("class " ++ (match i with
                              | some n => n
                              | none => " ")))
              (ihR b)
        | some sc =>
            show Emits (fun st =>
              render f b
                ((render f sc
                  ((st.write
                    ("class " ++ (match i with
                                  | some n => n
                                  | none => " "))).write ("extends "))).write (" ")))
            exact emits_comp
              (emits_comp
                (emits_comp
                  (emits_comp
                    (emits_write
                      ("class " ++ (match i with
                                    | some n => n
                                    | none => " ")))
                    (emits_write ("extends ")))
                  (ihR sc))
                (emits_write (" ")))
              (ihR b)
      · intro n pn ir
        show Emits (fun st =>
          if expressionNeedsParenthesis n pn ir = true then
            (render f n (st.write ("("))).write (")")
          else render f n st)
        exact emits_ite _
          (emits_comp (emits_comp (emits_write ("(")) (ihR n)) (emits_write (")")))
          (ihR n)
      · intro se op l r
        show Emits (fun st =>
          if (op == "in") = true then
            (formatBinaryExpressionPart f
              ((formatBinaryExpressionPart f (st.write ("(")) l se false).write
                (" " ++ op ++ " "))
              r se true).write (")")
          else
            formatBinaryExpressionPart f
              ((formatBinaryExpressionPart f st l se false).write
                (" " ++ op ++ " "))
              r se true)
        exact emits_ite _
          (emits_comp
            (emits_comp
              (emits_comp (emits_comp (emits_write ("(")) (ihBEP l se false))
                (emits_write (" " ++ op ++ " ")))
              (ihBEP r se true))
            (emits_write (")")))
          (emits_comp
            (emits_comp (ihBEP l se false) (emits_write (" " ++ op ++ " ")))
            (ihBEP r se true))


/-- The text a node's formatter appends to the output: the output of a run
started from an empty buffer in the same state. By `render_output` this is
exactly what any run appends. -/
def emit (fuel : Nat) (n : Node) (st : State) : List Char :=
  (render fuel n (res st)).output

theorem agree_res (st : State) : Agree st (res st) := ⟨rfl, rfl, rfl, rfl, rfl, rfl⟩

/-- A formatter only appends: the run from `st` produces the old output
followed by the emitted text, which does not depend on the old output. -/
theorem render_output (fuel : Nat) (n : Node) (st : State) :
    (render fuel n st).output = st.output ++ emit fuel n st := by
  obtain ⟨⟨t, h1, h2, _⟩, _⟩ := (emitsAll fuel).1 n st (res st) (agree_res st)
  have ht : t = emit fuel n st := by
    have : (res st).output = [] := rfl
    rw [emit, h2, this, List.nil_append]
  rw [h1, ht]

/-- The running states before and after a node differ only in output. -/
theorem render_agree (fuel : Nat) (n : Node) (st : State) :
    Agree (render fuel n st) (render fuel n (res st)) := by
  obtain ⟨⟨t, h1, h2, hag⟩, _⟩ := (emitsAll fuel).1 n st (res st) (agree_res st)
  exact hag

/-- The renderer never raises `noTrailingSemicolon`: if the flag is set
after a node is rendered, it was set at entry. -/
theorem render_nts_mono (fuel : Nat) (n : Node) (st : State) :
    (render fuel n st).noTrailingSemicolon = true →
      st.noTrailingSemicolon = true :=
  ((emitsAll fuel).1 n st st (Agree.refl st)).2

theorem emit_write (fuel : Nat) (n : Node) (st : State) (s : String) :
    emit fuel n (st.write s) = emit fuel n st := rfl

theorem write_output (st : State) (s : String) :
    (st.write s).output = st.output ++ s.data := rfl


theorem jsLt_some (a b : Nat) : jsLt (some a) (some b) = decide (a < b) := rfl

theorem jsLe_some (a b : Nat) : jsLe (some a) (some b) = decide (a ≤ b) := rfl

/-- The wrapping condition of `ExpressionStatement` as §4.3 of the
specification words it: the expression's kind is one of the three
precedence-17 kinds (class, function or object expression), or the
expression is an `AssignmentExpression` whose left side's `type` string
begins with `O`. -/
def specWrap : Node → Bool := fun e =>
  typeOf e == "ClassExpression" || typeOf e == "FunctionExpression"
    || typeOf e == "ObjectExpression"
    || (match e with
        | .AssignmentExpression _ l _ => headChar (typeOf l) == some 'O'
        | _ => false)

/-- The source's test (precedence 17, or precedence 3 with an O-kind left
side) coincides with the specification's wording on every node kind. -/
theorem wrapCond_eq (e : Node) :
    (EXPRESSIONS_PRECEDENCE (typeOf e) == some 17
      || (EXPRESSIONS_PRECEDENCE (typeOf e) == some 3
          && (match leftOf e with
              | some l => headChar (typeOf l) == some 'O'
              | none => false))) = specWrap e := by
  cases e <;> rfl

/-- C2: rendering an `ExpressionStatement` emits the inner expression's own
text, wrapped in parentheses exactly when the expression's kind has
precedence 17 (class, function or object expression) or is an assignment to
an object pattern, and always terminates with `;`. -/
theorem c2_expression_statement_wrap (fuel : Nat) (e : Node) (st : State) :
    (render (fuel + 1) (.ExpressionStatement e) st).output
      = st.output
        ++ (if specWrap e then ("(").data ++ emit fuel e st ++ (")").data
            else emit fuel e st)
        ++ (";").data := by
  have hdef : render (fuel + 1) (.ExpressionStatement e) st
      = State.write
          (if (EXPRESSIONS_PRECEDENCE (typeOf e) == some 17
              || (EXPRESSIONS_PRECEDENCE (typeOf e) == some 3
                  && (match leftOf e with
                      | some l => headChar (typeOf l) == some 'O'
                      | none => false))) = true then
            ((render fuel e (st.write ("("))).write (")"))
          else render fuel e st) (";") := rfl
  rw [hdef, wrapCond_eq, write_output]
  cases hw : specWrap e with
  | false =>
      rw [if_neg (by simp), render_output]
      simp [List.append_assoc]
  | true =>
      rw [if_pos rfl, if_pos rfl, write_output, render_output, emit_write, write_output]
      simp [List.append_assoc]


/-- C1: the parenthesization oracle `expressionNeedsParenthesis` follows the
specified case analysis whenever the table lookups are defined: different
expression precedences compare by `<`; equal precedence other than 13/14
never wraps; two `**` operators wrap exactly the left operand; otherwise a
right operand wraps on `≤` and a left operand on `<` of the operator
precedences. In particular the right-associative `2 ** 3 ** 4` renders
without parentheses and `(a || b) && c` keeps the parentheses of its left
operand. -/
theorem c1_parenthesization_oracle (child parent : Node) (isRight : Bool) (c p : Nat)
    (hc : EXPRESSIONS_PRECEDENCE (typeOf child) = some c)
    (hp : EXPRESSIONS_PRECEDENCE (typeOf parent) = some p) :
    (c ≠ p → expressionNeedsParenthesis child parent isRight = decide (c < p))
    ∧ (c = p → c ≠ 13 → c ≠ 14 →
        expressionNeedsParenthesis child parent isRight = false)
    ∧ (c = p → (c = 13 ∨ c = 14) →
        operatorOf child = some "**" → operatorOf parent = some "**" →
        expressionNeedsParenthesis child parent isRight = !isRight)
    ∧ (∀ co po, c = p → (c = 13 ∨ c = 14) →
        ¬(operatorOf child = some "**" ∧ operatorOf parent = some "**") →
        (operatorOf child).bind OPERATOR_PRECEDENCE = some co →
        (operatorOf parent).bind OPERATOR_PRECEDENCE = some po →
        expressionNeedsParenthesis child parent isRight
          = (if isRight then decide (co ≤ po) else decide (co < po)))
    ∧ (render 10 (.BinaryExpression "**" (.Literal ("2"))
        (.BinaryExpression "**" (.Literal ("3")) (.Literal ("4"))))
        defaultState).output = ("2 ** 3 ** 4").data
    ∧ (render 10 (.LogicalExpression "&&"
        (.LogicalExpression "||" (.Identifier ("a")) (.Identifier ("b")))
        (.Identifier ("c"))) defaultState).output = ("(a || b) && c").data := by
  have hdef : expressionNeedsParenthesis child parent isRight =
      if ((EXPRESSIONS_PRECEDENCE (typeOf child))
          != (EXPRESSIONS_PRECEDENCE (typeOf parent))) = true then
        jsLt (EXPRESSIONS_PRECEDENCE (typeOf child))
          (EXPRESSIONS_PRECEDENCE (typeOf parent))
      else if ((EXPRESSIONS_PRECEDENCE (typeOf child)) != some 13
          && (EXPRESSIONS_PRECEDENCE (typeOf child)) != some 14) = true then false
      else if (operatorOf child == some "**" && operatorOf parent == some "**") = true then
        !isRight
      else if isRight then
        jsLe ((operatorOf child).bind OPERATOR_PRECEDENCE)
          ((operatorOf parent).bind OPERATOR_PRECEDENCE)
      else
        jsLt ((operatorOf child).bind OPERATOR_PRECEDENCE)
          ((operatorOf parent).bind OPERATOR_PRECEDENCE) := rfl
  rw [hdef, hc, hp]
  refine ⟨?_, ?_, ?_, ?_, by decide, by decide⟩
  · intro hne
    rw [if_pos (by simp [hne])]
    exact jsLt_some c p
  · intro hcp h13 h14
    subst hcp
    rw [if_neg (by simp), if_pos (by simp [h13, h14])]
  · intro hcp h1314 hsc hsp
    subst hcp
    rw [if_neg (by simp), if_neg ?hnot, if_pos (by rw [hsc, hsp]; decide)]
    case hnot =>
      rcases h1314 with h | h <;> subst h <;> simp
  · intro co po hcp h1314 hnot hco hpo
    subst hcp
    rw [if_neg (by simp), if_neg ?hnot2, if_neg ?hop]
    case hnot2 =>
      rcases h1314 with h | h <;> subst h <;> simp
    case hop =>
      rw [Bool.not_eq_true, Bool.eq_false_iff]
      intro hT
      rw [Bool.and_eq_true, beq_iff_eq, beq_iff_eq] at hT
      exact hnot ⟨hT.1, hT.2⟩
    cases isRight with
    | true => rw [if_pos rfl, if_pos rfl, hco, hpo]; exact jsLe_some co po
    | false => rw [if_neg (by simp), if_neg (by simp), hco, hpo]; exact jsLt_some co po

/-- C1 witness: a concrete instance of the oracle's specification — the
identifier `a` on the left of `a + b` has precedence 20 against 14, so no
parentheses are required. -/
theorem c1_parenthesization_oracle_witness :
    expressionNeedsParenthesis (.Identifier ("a"))
      (.BinaryExpression "+" (.Identifier ("a")) (.Identifier ("b"))) false = false := by
  have h := (c1_parenthesization_oracle (.Identifier ("a"))
    (.BinaryExpression "+" (.Identifier ("a")) (.Identifier ("b"))) false 20 14
    (by decide) (by decide)).1
  simpa using h (by decide)

/-- C5: `indentLevel` is balanced: after any node's formatter returns, the
state's `indentLevel` equals its value at entry (the incrementing
formatters — blocks, class bodies, object literals by one, switch by two —
all restore it before returning). -/
theorem c5_indent_level_balanced (fuel : Nat) (n : Node) (st : State) :
    (render fuel n st).indentLevel = st.indentLevel := (indentAll fuel).1 n st

/-- The AST of scenario 5 of §8: an expression statement whose expression is
the arrow function `x => ({})`. -/
def c3node : Node :=
  .ExpressionStatement
    (.ArrowFunctionExpression false (some [.Identifier ("x")]) (.ObjectExpression []))

/-- C3 counterexample: with default options the statement renders as
`x => ({});` — the arrow function, having precedence 18 rather than 17, is
not wrapped at the statement head, contradicting the claimed output
`(x => ({}));`. -/
theorem c3_counterexample :
    astring 10 c3node Options.default = "x => (\x7b\x7d);"
    ∧ astring 10 c3node Options.default ≠ "(x => (\x7b\x7d));" := by
  constructor
  · decide
  · decide

/-- C3 amended: rendering the statement `x => ({})` with default options
produces `x => ({});` — the object body is parenthesized, but the arrow
expression itself is not wrapped, because `ArrowFunctionExpression` has
precedence 18 and `ExpressionStatement` only wraps precedence 17 (or an
assignment to an object pattern). -/
theorem c3_amended :
    astring 10 c3node Options.default = "x => (\x7b\x7d);"
    ∧ EXPRESSIONS_PRECEDENCE ("ArrowFunctionExpression") = some 18
    ∧ specWrap (.ArrowFunctionExpression false (some [.Identifier ("x")])
        (.ObjectExpression [])) = false := by
  refine ⟨by decide, rfl, by decide⟩


theorem emit_res (fuel : Nat) (n : Node) (st : State) :
    emit fuel n (res st) = emit fuel n st := rfl

theorem res_output (st : State) : (res st).output = [] := rfl

theorem renderCommaSep_nil (fuel : Nat) (st : State) :
    renderCommaSep fuel [] st = st := by
  cases fuel <;> rfl

/-- C10: an `ArrowFunctionExpression` whose `params` field is null emits no
parameter list at all — not even `()` — so its text is the optional
`async ` prefix followed directly by ` => ` and the body; the empty `()`
form arises only from a non-null empty list, and a single identifier
parameter is written bare. All three share the identical body text. -/
theorem c10_arrow_null_params (fuel : Nat) (async : Bool) (body : Node) (x : String)
    (st : State) :
    emit (fuel + 2) (.ArrowFunctionExpression async none body) st
      = (if async then ("async ").data else []) ++ (" => ").data
        ++ (if headChar (typeOf body) == some 'O' then
              ("(").data ++ emit (fuel + 1) body st ++ (")").data
            else emit (fuel + 1) body st)
    ∧ emit (fuel + 2) (.ArrowFunctionExpression async (some []) body) st
      = (if async then ("async ").data else []) ++ ("()").data ++ (" => ").data
        ++ (if headChar (typeOf body) == some 'O' then
              ("(").data ++ emit (fuel + 1) body st ++ (")").data
            else emit (fuel + 1) body st)
    ∧ emit (fuel + 2) (.ArrowFunctionExpression async (some [.Identifier x]) body) st
      = (if async then ("async ").data else []) ++ x.data ++ (" => ").data
        ++ (if headChar (typeOf body) == some 'O' then
              ("(").data ++ emit (fuel + 1) body st ++ (")").data
            else emit (fuel + 1) body st) := by
  have h1 : emit (fuel + 2) (.ArrowFunctionExpression async none body) st
      = ((fun s2 : State =>
          if (headChar (typeOf body) == some 'O') = true then
            (render (fuel + 1) body (s2.write ("("))).write (")")
          else render (fuel + 1) body s2)
        ((if async = true then (res st).write ("async ") else res st).write
          (" => "))).output := rfl
  have h2 : emit (fuel + 2) (.ArrowFunctionExpression async (some []) body) st
      = ((fun s2 : State =>
          if (headChar (typeOf body) == some 'O') = true then
            (render (fuel + 1) body (s2.write ("("))).write (")")
          else render (fuel + 1) body s2)
        ((((renderCommaSep fuel []
            ((if async = true then (res st).write ("async ") else res st).write
              ("("))).write (")"))).write (" => "))).output := rfl
  have h3 : emit (fuel + 2) (.ArrowFunctionExpression async (some [.Identifier x]) body) st
      = ((fun s2 : State =>
          if (headChar (typeOf body) == some 'O') = true then
            (render (fuel + 1) body (s2.write ("("))).write (")")
          else render (fuel + 1) body s2)
        (((if async = true then (res st).write ("async ") else res st).write
          (x)).write (" => "))).output := rfl
  refine ⟨?_, ?_, ?_⟩
  · rw [h1]
    cases async <;> cases hO : (headChar (typeOf body) == some 'O') <;>
      simp [hO, write_output, render_output, emit_write, emit_res, res_output,
        List.append_assoc]
  · rw [h2, renderCommaSep_nil]
    cases async <;> cases hO : (headChar (typeOf body) == some 'O') <;>
      simp [hO, write_output, render_output, emit_write, emit_res, res_output,
        List.append_assoc]
  · rw [h3]
    cases async <;> cases hO : (headChar (typeOf body) == some 'O') <;>
      simp [hO, write_output, render_output, emit_write, emit_res, res_output,
        List.append_assoc]

/-- A generator table containing only an `Identifier` entry, used to probe
how the `generator` option combines with the default table. -/
def overlayOnlyIdentifier : GenTable := fun ty =>
  if ty = "Identifier" then some 0 else none

/-- C4 counterexample: with a supplied generator holding only an
`Identifier` entry, the active table of the constructed state has no entry
for `Program`, although the default table does — so a kind missing from the
overlay does NOT fall back to the default table's formatter. -/
theorem c4_counterexample :
    (State.ofOptions ⟨none, none, none, none, some overlayOnlyIdentifier⟩).generator
        ("Program") = none
    ∧ defaultGeneratorTable ("Program") ≠ none := by
  exact ⟨by decide, by decide⟩

/-- C4 amended: the `generator` option replaces the dispatch table
wholesale: when supplied, every lookup goes to the supplied table — kinds
present in it use its formatters, and kinds missing from it have no
formatter at all (dispatch throws) — and only when the option is absent is
the default table used. -/
theorem c4_amended (ind le : Option String) (sil : Option Nat) (com : Option Bool)
    (g : GenTable) (ty : String) :
    (State.ofOptions ⟨ind, le, sil, com, some g⟩).generator = g
    ∧ (State.ofOptions ⟨ind, le, sil, com, none⟩).generator = defaultGeneratorTable
    ∧ (g ty = none →
        applyGenerator ((State.ofOptions ⟨ind, le, sil, com, some g⟩).generator) ty
          = Except.error JsError.typeErrorCallUndefined) := by
  refine ⟨rfl, rfl, ?_⟩
  intro h
  show applyGenerator g ty = Except.error JsError.typeErrorCallUndefined
  simp [applyGenerator, h]

/-- C4 witness: the amended claim at the concrete probe table. -/
theorem c4_amended_witness :
    (State.ofOptions ⟨none, none, none, none, some overlayOnlyIdentifier⟩).generator
      = overlayOnlyIdentifier
    ∧ applyGenerator overlayOnlyIdentifier ("Program")
      = Except.error JsError.typeErrorCallUndefined := by
  have h := c4_amended none none none none overlayOnlyIdentifier ("Program")
  exact ⟨h.1, h.2.2 (by decide)⟩

/-- C9 counterexample: two different unknown kinds fail with the SAME error
value: invoking the missing table entry throws a TypeError carrying no
information about the node kind, so the failure does not identify which
kind was unknown — there is no structured error naming the kind. -/
theorem c9_counterexample :
    applyGenerator defaultGeneratorTable ("FooBar")
      = Except.error JsError.typeErrorCallUndefined
    ∧ applyGenerator defaultGeneratorTable ("FooBar")
      = applyGenerator defaultGeneratorTable ("BarBaz")
    ∧ defaultGeneratorTable ("FooBar") = none := by
  refine ⟨rfl, rfl, by decide⟩

/-- C9 amended: when a node's `type` has no entry in the active dispatch
table, emission fails immediately — the lookup yields no formatter and
calling it throws — and no output value is produced; the error is the
uninformative TypeError of calling `undefined`, which does not name the
kind. -/
theorem c9_amended (g : GenTable) (ty : String) (h : g ty = none) :
    applyGenerator g ty = Except.error JsError.typeErrorCallUndefined
    ∧ ∀ r, applyGenerator g ty ≠ Except.ok r := by
  constructor
  · simp [applyGenerator, h]
  · intro r
    simp [applyGenerator, h]

/-- C9 witness: the amended claim at a concrete unknown kind. -/
theorem c9_amended_witness :
    applyGenerator defaultGeneratorTable ("FooBar")
      = Except.error JsError.typeErrorCallUndefined :=
  (c9_amended defaultGeneratorTable ("FooBar") (by decide)).1


/-- The text the declarator loop appends, measured from an empty buffer. -/
def emitCommaSep (fuel : Nat) (l : List Node) (st : State) : List Char :=
  (renderCommaSep fuel l (res st)).output

theorem renderCommaSep_output (fuel : Nat) (l : List Node) (st : State) :
    (renderCommaSep fuel l st).output = st.output ++ emitCommaSep fuel l st := by
  obtain ⟨⟨t, h1, h2, _⟩, _⟩ :=
    (emitsAll fuel).2.2.2.2.2.1 l st (res st) (agree_res st)
  have ht : t = emitCommaSep fuel l st := by
    have hres : (res st).output = [] := rfl
    rw [emitCommaSep, h2, hres, List.nil_append]
  rw [h1, ht]

theorem emitCommaSep_write (fuel : Nat) (l : List Node) (st : State) (s : String) :
    emitCommaSep fuel l (st.write s) = emitCommaSep fuel l st := rfl

/-- The AST of the C7 counterexample: a for-loop whose initializer contains
another for-loop inside an arrow function,
`for (let a = () => { for (0; ; ) {} }; ; ) {}`. -/
def c7decl : Node :=
  .VariableDeclaration "let"
    [.VariableDeclarator (.Identifier ("a"))
      (some (.ArrowFunctionExpression false (some [])
        (.BlockStatement
          [.ForStatement (some (.Literal ("0"))) none none (.BlockStatement [])])))]

/-- C7 counterexample: the inner for-loop's formatter resets
`noTrailingSemicolon` to `false` instead of restoring its entry value, so
the outer initializer's `VariableDeclaration` sees a cleared flag and emits
its `;` inside the `for` header — the rendered text contains `};;` — and a
`VariableDeclaration` entered with the flag set still ends with `;`. -/
theorem c7_counterexample :
    astring 30 (.ForStatement (some c7decl) none none (.BlockStatement []))
        Options.default
      = "for (let a = () => \x7b\n\tfor (0; ; ) \x7b\x7d\n\x7d;; ; ) \x7b\x7d"
    ∧ (render 30 c7decl
        { defaultState with noTrailingSemicolon := true }).output
      = ("let a = () => \x7b\n\tfor (0; ; ) \x7b\x7d\n\x7d;").data := by
  exact ⟨by decide, by decide⟩

/-- C7 amended: the renderer never raises `noTrailingSemicolon` — a
for-loop initializer raises it transiently and unconditionally resets it to
`false` (it is not restored to its entry value, which the counterexample
exploits); `VariableDeclaration` omits its trailing `;` exactly when the
flag is still set after its declarators have been emitted; and a for-loop
whose initializer contains no nested for-loop renders as expected,
`for (let i = 0; i < 10; i++) {}`. -/
theorem c7_amended :
    (∀ fuel (n : Node) (st : State),
        (render fuel n st).noTrailingSemicolon = true →
          st.noTrailingSemicolon = true)
    ∧ (∀ fuel (kind : String) (decls : List Node) (st : State),
        (render (fuel + 1) (.VariableDeclaration kind decls) st).output
          = st.output ++ (kind ++ " ").data ++ emitCommaSep fuel decls st
            ++ (if (renderCommaSep fuel decls
                  ((res st).write (kind ++ " "))).noTrailingSemicolon != true
                then (";").data else []))
    ∧ astring 30 (.ForStatement
        (some (.VariableDeclaration "let"
          [.VariableDeclarator (.Identifier ("i")) (some (.Literal ("0")))]))
        (some (.BinaryExpression "<" (.Identifier ("i")) (.Literal ("10"))))
        (some (.UpdateExpression "++" false (.Identifier ("i"))))
        (.BlockStatement [])) Options.default
      = "for (let i = 0; i < 10; i++) \x7b\x7d" := by
  refine ⟨render_nts_mono, ?_, by decide⟩
  intro fuel kind decls st
  have hdef : render (fuel + 1) (.VariableDeclaration kind decls) st
      = (fun s : State => if s.noTrailingSemicolon != true then s.write (";") else s)
        (renderCommaSep fuel decls (st.write (kind ++ " "))) := rfl
  rw [hdef]
  obtain ⟨⟨t, o1, o2, hag⟩, _⟩ :=
    (emitsAll fuel).2.2.2.2.2.1 decls (st.write (kind ++ " "))
      ((res st).write (kind ++ " "))
      (agree_write (agree_res st) (kind ++ " ") (kind ++ " "))
  dsimp only
  rw [← hag.nts]
  cases hb : ((renderCommaSep fuel decls
      ((res st).write (kind ++ " "))).noTrailingSemicolon != true) <;>
    simp [write_output, renderCommaSep_output, emitCommaSep_write,
      List.append_assoc]

/-- C7 witness: the flag-monotonicity part of the amended claim at a
concrete state whose flag is set, rendering an empty statement. -/
theorem c7_amended_witness :
    ({ defaultState with noTrailingSemicolon := true } : State).noTrailingSemicolon
      = true :=
  c7_amended.1 5 .EmptyStatement
    { defaultState with noTrailingSemicolon := true } (by decide)

/-- `true` when the string contains no newline character. -/
def noNlStr (s : String) : Bool := !(s.data.contains '\n')

mutual

/-- Nodes that keep the output's tail well-behaved: free of `Program` and
`DebuggerStatement`, with no newline characters inside any embedded string
(identifier names, literal texts, operators, declaration kinds). -/
def clean : Node → Bool
  | .Program _ => false
  | .DebuggerStatement => false
  | .BlockStatement body => cleanList body
  | .ClassBody body => cleanList body
  | .EmptyStatement => true
  | .ExpressionStatement e => clean e
  | .IfStatement t c a => clean t && (clean c && cleanOpt a)
  | .WhileStatement t b => clean t && clean b
  | .DoWhileStatement b t => clean b && clean t
  | .ForStatement i t u b => cleanOpt i && (cleanOpt t && (cleanOpt u && clean b))
  | .ForInStatement l r b => clean l && (clean r && clean b)
  | .ForOfStatement l r b => clean l && (clean r && clean b)
  | .SwitchStatement d cs => clean d && cleanCases cs
  | .ReturnStatement a => cleanOpt a
  | .ThrowStatement a => clean a
  | .VariableDeclaration kind ds => noNlStr kind && cleanList ds
  | .VariableDeclarator i init => clean i && cleanOpt init
  | .FunctionDeclaration _ _ i p b =>
      (match i with
       | some s => noNlStr s
       | none => true) && (cleanOptList p && clean b)
  | .FunctionExpression _ _ i p b =>
      (match i with
       | some s => noNlStr s
       | none => true) && (cleanOptList p && clean b)
  | .ClassDeclaration i sc b =>
      (match i with
       | some s => noNlStr s
       | none => true) && (cleanOpt sc && clean b)
  | .ClassExpression i sc b =>
      (match i with
       | some s => noNlStr s
       | none => true) && (cleanOpt sc && clean b)
  | .ArrowFunctionExpression _ p b => cleanOptList p && clean b
  | .ThisExpression => true
  | .Super => true
  | .RestElement a => clean a
  | .SpreadElement a => clean a
  | .SequenceExpression es => cleanList es
  | .UnaryExpression op _ a => noNlStr op && clean a
  | .UpdateExpression op _ a => noNlStr op && clean a
  | .AssignmentExpression op l r => noNlStr op && (clean l && clean r)
  | .AssignmentPattern l r => clean l && clean r
  | .BinaryExpression op l r => noNlStr op && (clean l && clean r)
  | .LogicalExpression op l r => noNlStr op && (clean l && clean r)
  | .ConditionalExpression t c a => clean t && (clean c && clean a)
  | .NewExpression c args => clean c && cleanList args
  | .CallExpression c args => clean c && cleanList args
  | .MemberExpression o p _ => clean o && clean p
  | .ObjectExpression ps => cleanList ps
  | .Property _ _ k v => clean k && clean v
  | .ObjectPattern ps => cleanList ps
  | .Identifier name => noNlStr name
  | .Literal raw => noNlStr raw

def cleanList : List Node → Bool
  | [] => true
  | x :: xs => clean x && cleanList xs

def cleanOpt : Option Node → Bool
  | none => true
  | some x => clean x

def cleanOptList : Option (List Node) → Bool
  | none => true
  | some l => cleanList l

def cleanCases : List (Option Node × List Node) → Bool
  | [] => true
  | (t, cq) :: rest => cleanOpt t && (cleanList cq && cleanCases rest)

end

theorem noNlEnd_append_last (l : List Char) (s : String) (hne : s.data ≠ [])
    (hlast : s.data.getLast? ≠ some '\n') : (l ++ s.data).getLast? ≠ some '\n' := by
  rw [List.getLast?_append_of_ne_nil _ hne]; exact hlast

theorem noNlEnd_append_weak (l : List Char) (s : String)
    (hl : l.getLast? ≠ some '\n') (hs : noNlStr s = true) :
    (l ++ s.data).getLast? ≠ some '\n' := by
  cases he : s.data with
  | nil => simpa [he] using hl
  | cons a t =>
      rw [List.getLast?_append_of_ne_nil _ (by simp [he])]
      intro hcon
      have hmem : '\n' ∈ a :: t :=
        List.mem_of_mem_getLast? (show '\n' ∈ (a :: t).getLast? from hcon)
      have hnc : ¬ ('\n' ∈ s.data) := by
        simpa [noNlStr] using hs
      rw [he] at hnc
      exact hnc hmem

theorem noNlEnd_write_lit (st : State) (s : String) (hne : s.data ≠ [])
    (hlast : s.data.getLast? ≠ some '\n') :
    ((st.write s).output).getLast? ≠ some '\n' := by
  rw [write_output]; exact noNlEnd_append_last _ s hne hlast

theorem noNlEnd_write_weak (st : State) (s : String)
    (hl : (st.output).getLast? ≠ some '\n') (hs : noNlStr s = true) :
    ((st.write s).output).getLast? ≠ some '\n' := by
  rw [write_output]; exact noNlEnd_append_weak _ s hl hs

theorem noNlStr_append (a b : String) (ha : noNlStr a = true) (hb : noNlStr b = true) :
    noNlStr (a ++ b) = true := by
  simp [noNlStr, String.data_append, List.mem_append, not_or] at *
  exact ⟨ha, hb⟩

theorem noNlEnd_write_cat (st : State) (a b : String) (hne : b.data ≠ [])
    (hlast : b.data.getLast? ≠ some '\n') :
    (((st.write (a ++ b))).output).getLast? ≠ some '\n' := by
  rw [write_output, String.data_append, ← List.append_assoc]
  exact noNlEnd_append_last _ b hne hlast

theorem noNlAll (fuel : Nat) :
    (∀ n st, clean n = true →
        (st.output).getLast? ≠ some '\n' →
        ((render fuel n st).output).getLast? ≠ some '\n')
    ∧ (∀ body st, (st.output).getLast? ≠ some '\n' →
        ((renderBlock fuel body st).output).getLast? ≠ some '\n')
    ∧ (∀ isIn l r b st, clean b = true →
        (st.output).getLast? ≠ some '\n' →
        ((renderForIn fuel isIn l r b st).output).getLast? ≠ some '\n')
    ∧ (∀ ns st, cleanList ns = true →
        (st.output).getLast? ≠ some '\n' →
        ((renderCommaSep fuel ns st).output).getLast? ≠ some '\n')
    ∧ (∀ ns st, cleanList ns = true →
        (st.output).getLast? ≠ some '\n' →
        ((renderCommaSepTail fuel ns st).output).getLast? ≠ some '\n')
    ∧ (∀ st ns, (st.output).getLast? ≠ some '\n' →
        ((formatSequence fuel st ns).output).getLast? ≠ some '\n')
    ∧ (∀ a g i p b st, clean b = true →
        (st.output).getLast? ≠ some '\n' →
        ((renderFunction fuel a g i p b st).output).getLast? ≠ some '\n')
    ∧ (∀ i sc b st,
        (match i with | some s => noNlStr s | none => true) = true →
        clean b = true →
        (st.output).getLast? ≠ some '\n' →
        ((renderClass fuel i sc b st).output).getLast? ≠ some '\n')
    ∧ (∀ st n pn ir, clean n = true →
        (st.output).getLast? ≠ some '\n' →
        ((formatBinaryExpressionPart fuel st n pn ir).output).getLast? ≠ some '\n')
    ∧ (∀ self op l r st, clean r = true →
        (st.output).getLast? ≠ some '\n' →
        ((renderBinary fuel self op l r st).output).getLast? ≠ some '\n') := by
  induction fuel with
  | zero =>
      exact ⟨fun _ _ _ h => h, fun _ _ h => h, fun _ _ _ _ _ _ h => h,
        fun _ _ _ h => h, fun _ _ _ h => h, fun _ _ h => h,
        fun _ _ _ _ _ _ _ h => h, fun _ _ _ _ _ _ h => h,
        fun _ _ _ _ _ h => h, fun _ _ _ _ _ _ h => h⟩
  | succ fuel ih =>
      obtain ⟨ihR, ihB, ihFI, ihCS, ihCST, ihSeq, ihFn, ihCl, ihFB, ihBin⟩ := ih
      refine ⟨?_, ?_, ?_, ?_, ?_, ?_, ?_, ?_, ?_, ?_⟩
      · intro n st hc hst
        cases n with
        | Program body => simp [clean] at hc
        | BlockStatement body => exact ihB body st hst
        | ClassBody body => exact ihB body st hst
        | EmptyStatement =>
            exact noNlEnd_write_lit _ (";") (by decide) (by decide)
        | ExpressionStatement e =>
            exact noNlEnd_write_lit _ (";") (by decide) (by decide)
        | IfStatement t c a =>
            simp [clean, cleanOpt] at hc
            cases a with
            | none =>
                exact ihR c _ hc.2.1
                  (noNlEnd_write_lit _ (") ") (by decide) (by decide))
            | some alt =>
                exact ihR alt _ hc.2.2
                  (noNlEnd_write_lit _ (" else ") (by decide) (by decide))
        | WhileStatement t b =>
            simp [clean] at hc
            exact ihR b _ hc.2 (noNlEnd_write_lit _ (") ") (by decide) (by decide))
        | DoWhileStatement b t =>
            exact noNlEnd_write_lit _ (");") (by decide) (by decide)
        | ForStatement i t u b =>
            simp [clean, cleanOpt] at hc
            exact ihR b _ hc.2.2.2 (noNlEnd_write_lit _ (") ") (by decide) (by decide))
        | ForInStatement l r b =>
            simp [clean] at hc
            exact ihFI true l r b st hc.2.2 hst
        | ForOfStatement l r b =>
            simp [clean] at hc
            exact ihFI false l r b st hc.2.2 hst
        | SwitchStatement d cs =>
            exact noNlEnd_write_cat _ _ ("\x7d") (by decide) (by decide)
        | ReturnStatement a =>
            exact noNlEnd_write_lit _ (";") (by decide) (by decide)
        | ThrowStatement a =>
            exact noNlEnd_write_lit _ (";") (by decide) (by decide)
        | DebuggerStatement => simp [clean] at hc
        | VariableDeclaration kind ds =>
            simp [clean] at hc
            simp only [render]
            split
            · exact noNlEnd_write_lit _ (";") (by decide) (by decide)
            · exact ihCS ds _ hc.2 (noNlEnd_write_cat st kind (" ") (by decide) (by decide))
        | VariableDeclarator i init =>
            simp [clean, cleanOpt] at hc
            cases init with
            | none => exact ihR i st hc.1 hst
            | some v =>
                exact ihR v _ hc.2 (noNlEnd_write_lit _ (" = ") (by decide) (by decide))
        | FunctionDeclaration a g i p b =>
            simp [clean] at hc
            exact ihFn a g i p b st hc.2.2 hst
        | FunctionExpression a g i p b =>
            simp [clean] at hc
            exact ihFn a g i p b st hc.2.2 hst
        | ClassDeclaration i sc b =>
            simp only [clean, Bool.and_eq_true] at hc
            exact ihCl i sc b st hc.1 hc.2.2 hst
        | ClassExpression i sc b =>
            simp only [clean, Bool.and_eq_true] at hc
            exact ihCl i sc b st hc.1 hc.2.2 hst
        | ArrowFunctionExpression async p b =>
            simp [clean] at hc
            simp only [render]
            (repeat' split) <;>
              first
                | exact noNlEnd_write_lit _ (")") (by decide) (by decide)
                | exact ihR b _ hc.2 (noNlEnd_write_lit _ (" => ") (by decide) (by decide))
        | ThisExpression =>
            exact noNlEnd_write_lit _ ("this") (by decide) (by decide)
        | Super =>
            exact noNlEnd_write_lit _ ("super") (by decide) (by decide)
        | RestElement a =>
            simp [clean] at hc
            exact ihR a _ hc (noNlEnd_write_lit _ ("...") (by decide) (by decide))
        | SpreadElement a =>
            simp [clean] at hc
            exact ihR a _ hc (noNlEnd_write_lit _ ("...") (by decide) (by decide))
        | SequenceExpression es =>
            exact ihSeq st (some es) hst
        | UnaryExpression op pr a =>
            simp [clean] at hc
            simp only [render]
            (repeat' split) <;>
              first
                | exact noNlEnd_write_lit _ (")") (by decide) (by decide)
                | exact ihR a _ hc.2 (noNlEnd_write_lit _ (" ") (by decide) (by decide))
                | exact ihR a _ hc.2 (noNlEnd_write_weak _ _ hst hc.1)
                | exact noNlEnd_write_weak _ _ (ihR a _ hc.2 hst) hc.1
        | UpdateExpression op pr a =>
            simp [clean] at hc
            simp only [render]
            split
            · exact ihR a _ hc.2 (noNlEnd_write_weak _ _ hst hc.1)
            · exact noNlEnd_write_weak _ _ (ihR a _ hc.2 hst) hc.1
        | AssignmentExpression op l r =>
            simp [clean] at hc
            exact ihR r _ hc.2.2 (noNlEnd_write_cat _ _ (" ") (by decide) (by decide))
        | AssignmentPattern l r =>
            simp [clean] at hc
            exact ihR r _ hc.2 (noNlEnd_write_lit _ (" = ") (by decide) (by decide))
        | BinaryExpression op l r =>
            simp [clean] at hc
            exact ihBin _ op l r st hc.2.2 hst
        | LogicalExpression op l r =>
            simp [clean] at hc
            exact ihBin _ op l r st hc.2.2 hst
        | ConditionalExpression t c a =>
            simp [clean] at hc
            exact ihR a _ hc.2.2 (noNlEnd_write_lit _ (" : ") (by decide) (by decide))
        | NewExpression c args =>
            simp [clean] at hc
            refine ihSeq _ (some args) ?_
            split
            · exact noNlEnd_write_lit _ (")") (by decide) (by decide)
            · exact ihR c _ hc.1 (noNlEnd_write_lit _ ("new ") (by decide) (by decide))
        | CallExpression c args =>
            simp [clean] at hc
            refine ihSeq _ (some args) ?_
            split
            · exact noNlEnd_write_lit _ (")") (by decide) (by decide)
            · exact ihR c _ hc.1 hst
        | MemberExpression o p comp =>
            simp [clean] at hc
            simp only [render]
            (repeat' split) <;>
              first
                | exact noNlEnd_write_lit _ ("]") (by decide) (by decide)
                | exact ihR p _ hc.2 (noNlEnd_write_lit _ (".") (by decide) (by decide))
        | ObjectExpression ps =>
            cases ps with
            | nil => exact noNlEnd_write_lit _ ("\x7d") (by decide) (by decide)
            | cons p ps' => exact noNlEnd_write_cat _ _ ("\x7d") (by decide) (by decide)
        | Property sh comp k v =>
            simp [clean] at hc
            refine ihR v _ hc.2 ?_
            split
            · exact noNlEnd_write_lit _ (": ") (by decide) (by decide)
            · exact hst
        | ObjectPattern ps =>
            exact noNlEnd_write_lit _ ("\x7d") (by decide) (by decide)
        | Identifier name =>
            simp [clean] at hc
            exact noNlEnd_write_weak st name hst hc
        | Literal raw =>
            simp [clean] at hc
            exact noNlEnd_write_weak st raw hst hc
      · intro body st hst
        exact noNlEnd_write_lit _ ("\x7d") (by decide) (by decide)
      · intro isIn l r b st hcb hst
        exact ihR b _ hcb (noNlEnd_write_lit _ (") ") (by decide) (by decide))
      · intro ns st hcl hst
        cases ns with
        | nil => exact hst
        | cons x xs =>
            simp [cleanList] at hcl
            exact ihCST xs _ hcl.2 (ihR x st hcl.1 hst)
      · intro ns st hcl hst
        cases ns with
        | nil => exact hst
        | cons x xs =>
            simp [cleanList] at hcl
            exact ihCST xs _ hcl.2
              (ihR x _ hcl.1 (noNlEnd_write_lit _ (", ") (by decide) (by decide)))
      · intro st ns hst
        exact noNlEnd_write_lit _ (")") (by decide) (by decide)
      · intro a g i p b st hcb hst
        exact ihR b _ hcb (noNlEnd_write_lit _ (" ") (by decide) (by decide))
      · intro i sc b st hid hcb hst
        cases sc with
        | some sc' =>
            exact ihR b _ hcb (noNlEnd_write_lit _ (" ") (by decide) (by decide))
        | none =>
            cases i with
            | some nm =>
                exact ihR b _ hcb
                  (noNlEnd_write_weak _ _ hst (noNlStr_append ("class ") nm (by decide) hid))
            | none =>
                exact ihR b _ hcb (noNlEnd_write_cat _ _ (" ") (by decide) (by decide))
      · intro st n pn ir hcn hst
        simp only [formatBinaryExpressionPart]
        split
        · exact noNlEnd_write_lit _ (")") (by decide) (by decide)
        · exact ihR n st hcn hst
      · intro self op l r st hcr hst
        simp only [renderBinary]
        split
        · exact noNlEnd_write_lit _ (")") (by decide) (by decide)
        · exact ihFB _ r self true hcr (noNlEnd_write_cat _ _ (" ") (by decide) (by decide))

/-- C6, counterexample: not every formatter leaves the output immediately
after its own last character. The `DebuggerStatement` branch (source line
419) writes `'debugger;' + state.lineEnd`, a trailing line end of its own,
so inside a `Program` the statement is followed by two newlines: the one it
wrote itself and the one the `Program` loop writes after every statement. -/
theorem c6_counterexample :
    (render 5 .DebuggerStatement defaultState).output = ("debugger;\n").data
    ∧ astring 5 (.Program [.DebuggerStatement]) Options.default = "debugger;\n\n" :=
  ⟨by decide, by decide⟩

/-- C6, amended: with the sole exception of `DebuggerStatement` (which
appends a line end of its own), every formatter leaves the output
immediately after the last character of its node's own text. Formally: for
every node free of `Program` and `DebuggerStatement` whose embedded strings
contain no newline character (`clean`), rendering onto an output that does
not end with a newline yields an output that does not end with a newline —
so no formatter deposits a trailing line end or indent for its caller's
next sibling, and a statement inside a program or block is followed by
exactly the one line end the enclosing loop writes. -/
theorem c6_amended (fuel : Nat) (n : Node) (st : State) (hc : clean n = true)
    (hst : (st.output).getLast? ≠ some '\n') :
    ((render fuel n st).output).getLast? ≠ some '\n' :=
  (noNlAll fuel).1 n st hc hst

theorem c6_amended_witness :
    clean (.ExpressionStatement (.Identifier ("a"))) = true
    ∧ ((render 5 (.ExpressionStatement (.Identifier ("a"))) defaultState).output).getLast?
        ≠ some '\n' :=
  ⟨by simp only [clean]; decide,
   c6_amended 5 (.ExpressionStatement (.Identifier ("a"))) defaultState
     (by simp only [clean]; decide) (by decide)⟩

/-- The JavaScript whitespace class used by `trim`, `trimLeft` and
`trimRight`, restricted to the ASCII whitespace characters. -/
def jsWs (c : Char) : Bool :=
  c == ' ' || c == '\t' || c == '\n' || c == '\r' || c == '\x0b' || c == '\x0c'

/-- `text.trimLeft()` on character lists. -/
def trimLeftL (l : List Char) : List Char := l.dropWhile jsWs

/-- `text.trimRight()` on character lists. -/
def trimRightL (l : List Char) : List Char := (l.reverse.dropWhile jsWs).reverse

/-- `text.trimLeft()`. -/
def jsTrimLeft (s : String) : String := ⟨trimLeftL s.data⟩

/-- `text.trimRight()`. -/
def jsTrimRight (s : String) : String := ⟨trimRightL s.data⟩

/-- `value.trim()`. -/
def jsTrim (s : String) : String := jsTrimLeft (jsTrimRight s)

/-- The scanning loop of `reindent` (source lines 133-147): `chars` is the
rest of the right-trimmed text still to scan, `indents` the accumulator
initialized to `'\n'`, `secondLine` the flag set at the first newline, and
`text` the whole right-trimmed string captured for the return expressions.
`split(...).join(...)` is `String.splitOn`/`String.intercalate`. -/
def reindentLoop (chars : List Char) (indents : List Char) (secondLine : Bool)
    (text indentation : String) : String :=
  match chars with
  | [] => indentation ++ jsTrimLeft text
  | c :: rest =>
      if secondLine then
        if c == ' ' || c == '\t' then
          reindentLoop rest (indents ++ [c]) true text indentation
        else
          indentation ++ String.intercalate ("\n" ++ indentation)
            ((jsTrimLeft text).splitOn ⟨indents⟩)
      else
        reindentLoop rest indents (c == '\n') text indentation

/-- `reindent(text, indentation)` (source lines 126-148), translated
directly: right-trim, then scan with `indents = '\n'` and
`secondLine = false`. -/
def reindent (text indentation : String) : String :=
  let t := jsTrimRight text
  reindentLoop t.data ['\n'] false t indentation

/-- A comment attachment: `type` (`"Line"`/`"Block"`) and `value`. -/
structure Comment where
  type : String
  value : String

/-- `formatComments(state, comments, indent, lineEnd)` (source lines
152-175): each comment is preceded by the indent; a comment whose `type`
begins with `L` becomes `// ` plus the trimmed value plus a literal
newline; any other comment becomes a reindented block between `/*` and
`*/`. -/
def formatComments (st : State) (comments : List Comment)
    (indent lineEnd : String) : State :=
  match comments with
  | [] => st
  | c :: rest =>
      let st := st.write (indent)
      let st :=
        if headChar c.type == some 'L' then
          st.write ("// " ++ jsTrim c.value ++ "\n")
        else
          st.write ("/*" ++ lineEnd ++ reindent c.value indent ++ lineEnd
            ++ indent ++ "*/" ++ lineEnd)
      formatComments st rest indent lineEnd

/-- The suffix of a character list after its first newline. -/
def afterFirstNl : List Char → List Char
  | [] => []
  | c :: rest => if c == '\n' then rest else afterFirstNl rest

/-- A space-or-tab character, as classified by the `reindent` scanner. -/
def isSpTab (c : Char) : Bool := c == ' ' || c == '\t'

/-- The spec's re-indent algorithm, written from §4.7's words: trim the
body's trailing whitespace; if the result contains no newline, prefix the
left-trimmed body with the indentation; otherwise let `P` be the run of
spaces and tabs immediately after the first newline, trim the body's
leading whitespace, split on `'\n' + P` and rejoin with
`'\n' + indentation`, prefixed with the indentation. -/
def reindentSpec (text indentation : String) : String :=
  let t := jsTrimRight text
  if t.data.contains '\n' then
    let p := (afterFirstNl t.data).takeWhile isSpTab
    indentation ++ String.intercalate ("\n" ++ indentation)
      ((jsTrimLeft t).splitOn ⟨'\n' :: p⟩)
  else
    indentation ++ jsTrimLeft t

/-- The text §4.7 of the spec prescribes for one comment: line comments
(type beginning with `L`) become `indent + '// ' + value.trim() + '\n'`;
all others a block framed by `/*` and `*/` around the value re-indented by
`reindentSpec`. -/
def commentText (c : Comment) (indent lineEnd : String) : String :=
  if headChar c.type == some 'L' then
    indent ++ ("// " ++ jsTrim c.value ++ "\n")
  else
    indent ++ ("/*" ++ lineEnd ++ reindentSpec c.value indent ++ lineEnd
      ++ indent ++ "*/" ++ lineEnd)

/-- The concatenation of the spec-prescribed texts of a comment list. -/
def commentsText (comments : List Comment) (indent lineEnd : String) : String :=
  match comments with
  | [] => ""
  | c :: rest => commentText c indent lineEnd ++ commentsText rest indent lineEnd

theorem dropWhile_head?_not (p : Char → Bool) (l : List Char) (c : Char)
    (h : (l.dropWhile p).head? = some c) : p c = false := by
  induction l with
  | nil => simp [List.dropWhile] at h
  | cons a t ihp =>
      rw [List.dropWhile_cons] at h
      split at h
      · exact ihp h
      · next hpa =>
          simp at h
          subst h
          simpa using hpa

theorem trimRightL_getLast (s : List Char) (c : Char)
    (h : (trimRightL s).getLast? = some c) : jsWs c = false := by
  unfold trimRightL at h
  rw [List.getLast?_reverse] at h
  exact dropWhile_head?_not _ _ _ h

theorem afterFirstNl_decomp (l : List Char) (h : l.contains '\n' = true) :
    ∃ pre, l = pre ++ '\n' :: afterFirstNl l := by
  induction l with
  | nil => simp at h
  | cons c rest ihp =>
      by_cases hc : c = '\n'
      · subst hc
        exact ⟨[], by simp [afterFirstNl]⟩
      · have h2 : rest.contains '\n' = true := by
          simp [List.contains_cons] at h
          rcases h with h | h
          · exact absurd h.symm hc
          · simpa using h
        obtain ⟨pre, hp⟩ := ihp h2
        refine ⟨c :: pre, ?_⟩
        have h3 : afterFirstNl (c :: rest) = afterFirstNl rest := by
          simp [afterFirstNl, hc]
        rw [h3, List.cons_append, ← hp]

theorem reindentLoop_nil (indents : List Char) (sl : Bool) (text ind : String) :
    reindentLoop [] indents sl text ind = ind ++ jsTrimLeft text := rfl

theorem reindentLoop_cons_true (c : Char) (rest indents : List Char) (text ind : String) :
    reindentLoop (c :: rest) indents true text ind
      = if isSpTab c = true then reindentLoop rest (indents ++ [c]) true text ind
        else ind ++ String.intercalate ("\n" ++ ind)
              ((jsTrimLeft text).splitOn ⟨indents⟩) := rfl

theorem reindentLoop_cons_false (c : Char) (rest indents : List Char) (text ind : String) :
    reindentLoop (c :: rest) indents false text ind
      = reindentLoop rest indents (c == '\n') text ind := rfl

theorem reindentLoop_noNl (chars : List Char) : ∀ (text ind : String),
    chars.contains '\n' = false →
    reindentLoop chars ['\n'] false text ind = ind ++ jsTrimLeft text := by
  induction chars with
  | nil => intro text ind _; exact reindentLoop_nil _ _ _ _
  | cons c rest ihp =>
      intro text ind h
      simp [List.contains_cons] at h
      have hn : (c == '\n') = false := by
        simp
        intro hcq
        exact absurd hcq.symm h.1
      rw [reindentLoop_cons_false, hn]
      exact ihp text ind (by simpa using h.2)

theorem reindentLoop_find (chars : List Char) : ∀ (text ind : String),
    chars.contains '\n' = true →
    reindentLoop chars ['\n'] false text ind
      = reindentLoop (afterFirstNl chars) ['\n'] true text ind := by
  induction chars with
  | nil => intro text ind h; simp at h
  | cons c rest ihp =>
      intro text ind h
      rw [reindentLoop_cons_false]
      by_cases hc : c = '\n'
      · subst hc
        have h3 : afterFirstNl ('\n' :: rest) = rest := by simp [afterFirstNl]
        rw [h3]
        rfl
      · have h2 : rest.contains '\n' = true := by
          simp [List.contains_cons] at h
          rcases h with h | h
          · exact absurd h.symm hc
          · simpa using h
        have h3 : afterFirstNl (c :: rest) = afterFirstNl rest := by
          simp [afterFirstNl, hc]
        have hn : (c == '\n') = false := by
          simp
          intro hcq
          exact absurd hcq hc
        rw [h3, hn]
        exact ihp text ind h2

theorem reindentLoop_second (chars : List Char) : ∀ (indents : List Char) (text ind : String),
    reindentLoop chars indents true text ind
      = if chars.dropWhile isSpTab = [] then ind ++ jsTrimLeft text
        else ind ++ String.intercalate ("\n" ++ ind)
              ((jsTrimLeft text).splitOn ⟨indents ++ chars.takeWhile isSpTab⟩) := by
  induction chars with
  | nil =>
      intro indents text ind
      rw [reindentLoop_nil]
      simp
  | cons c rest ihp =>
      intro indents text ind
      rw [reindentLoop_cons_true]
      cases hsp : isSpTab c with
      | true =>
          rw [if_pos rfl, ihp]
          simp only [List.dropWhile_cons, List.takeWhile_cons, hsp, if_true]
          split
          · rfl
          · rw [List.append_cons indents c (rest.takeWhile isSpTab)]
      | false =>
          rw [if_neg (by simp)]
          simp only [List.dropWhile_cons, List.takeWhile_cons, hsp]
          simp

theorem reindent_split_found (t : List Char)
    (hnl : t.contains '\n' = true)
    (hlast : ∀ c, t.getLast? = some c → jsWs c = false) :
    ¬ ((afterFirstNl t).dropWhile isSpTab = []) := by
  intro hdrop
  have hall : ∀ a ∈ afterFirstNl t, isSpTab a = true := List.dropWhile_eq_nil_iff.mp hdrop
  obtain ⟨pre, hp⟩ := afterFirstNl_decomp t hnl
  cases hsuf : afterFirstNl t with
  | nil =>
      have hlt : t.getLast? = some '\n' := by
        rw [hp, hsuf]
        rw [List.getLast?_append_of_ne_nil _ (by simp)]
        rfl
      have := hlast '\n' hlt
      simp [jsWs] at this
  | cons a suf =>
      have hlt : t.getLast? = (a :: suf).getLast? := by
        rw [hp, hsuf]
        rw [List.getLast?_append_of_ne_nil _ (by simp)]
        rfl
      cases hg : (a :: suf).getLast? with
      | none => simp at hg
      | some d =>
          have hd : d ∈ a :: suf :=
            List.mem_of_mem_getLast? (show d ∈ (a :: suf).getLast? from by rw [hg]; rfl)
          have hsptab : isSpTab d = true := hall d (by rw [hsuf]; exact hd)
          have hws : jsWs d = false := hlast d (by rw [hlt, hg])
          have : d = ' ' ∨ d = '\t' := by simpa [isSpTab] using hsptab
          rcases this with h | h <;> (subst h; simp [jsWs] at hws)

theorem reindent_eq_reindentSpec (text indentation : String) :
    reindent text indentation = reindentSpec text indentation := by
  simp only [reindent, reindentSpec]
  cases hnl : (jsTrimRight text).data.contains '\n' with
  | false =>
      rw [reindentLoop_noNl _ _ _ hnl]
      simp
  | true =>
      rw [reindentLoop_find _ _ _ hnl, reindentLoop_second]
      rw [if_neg (reindent_split_found _ hnl (fun c h => trimRightL_getLast text.data c h))]
      simp

theorem formatComments_output (comments : List Comment) :
    ∀ (st : State) (indent lineEnd : String),
    (formatComments st comments indent lineEnd).output
      = st.output ++ (commentsText comments indent lineEnd).data := by
  induction comments with
  | nil => intro st i le; simp [formatComments, commentsText]
  | cons c rest ihp =>
      intro st i le
      simp only [formatComments]
      rw [ihp]
      cases hty : (headChar c.type == some 'L') with
      | true =>
          simp [hty, commentsText, commentText, write_output, String.data_append,
            List.append_assoc]
      | false =>
          simp [hty, commentsText, commentText, write_output, String.data_append,
            reindent_eq_reindentSpec, List.append_assoc]

/-- C8: the comment formatter emits, for a comment whose type begins with
`L`, exactly `indent + '// ' + value.trim() + '\n'` (a literal newline,
whatever the configured line end), and for every other comment a block
framed by `/*` and `*/` whose body is re-indented exactly as the spec
describes: `reindent` (translated from the source's scanning loop) agrees
with `reindentSpec` (written from the spec's algorithm: trim trailing
whitespace; take the run of spaces and tabs after the first newline as the
internal prefix `P`; trim leading whitespace, split on `'\n' + P` and
rejoin with `'\n' + indent`; with no newline, just prefix with the
indent), and the output of `formatComments` is the concatenation of the
spec-prescribed comment texts. -/
theorem c8_comment_formatter :
    (∀ text indentation, reindent text indentation = reindentSpec text indentation)
    ∧ ∀ (comments : List Comment) (st : State) (indent lineEnd : String),
        (formatComments st comments indent lineEnd).output
          = st.output ++ (commentsText comments indent lineEnd).data :=
  ⟨reindent_eq_reindentSpec, fun comments st i le => formatComments_output comments st i le⟩

end Astring
